import Mathlib

/-!
Verification development for the wormhole renderer
(src/wormhole_sim.cpp, the refraction-portal variant, and
src/wormhole_geodesic.cpp, the RK4 geodesic variant).

The GLSL/C++ float arithmetic is shallowly embedded over ℚ (idealised
real arithmetic; float literals are read at their decimal value).  Square
roots are modelled by `ratSqrt`, which returns the exact non-negative
rational square root when one exists and 0 otherwise; every concrete
input used in a witness or counterexample is chosen so that all square
roots taken along its evaluation are exact.  IEEE-754 special values
(±inf/NaN, relevant only to the cube slab test's division by a zero
direction component) are outside this model and are not relied on by any
theorem below.
-/

namespace Wormhole

/-- Three-component vector over ℚ, standing for glm::vec3. -/
structure Vec3 where
  x : ℚ
  y : ℚ
  z : ℚ
deriving DecidableEq, Repr

namespace Vec3

instance : Add Vec3 := ⟨fun a b => ⟨a.x + b.x, a.y + b.y, a.z + b.z⟩⟩
instance : Sub Vec3 := ⟨fun a b => ⟨a.x - b.x, a.y - b.y, a.z - b.z⟩⟩
instance : Neg Vec3 := ⟨fun a => ⟨-a.x, -a.y, -a.z⟩⟩
instance : SMul ℚ Vec3 := ⟨fun k v => ⟨k * v.x, k * v.y, k * v.z⟩⟩

theorem add_def (a b : Vec3) : a + b = ⟨a.x + b.x, a.y + b.y, a.z + b.z⟩ := rfl
theorem sub_def (a b : Vec3) : a - b = ⟨a.x - b.x, a.y - b.y, a.z - b.z⟩ := rfl
theorem neg_def (a : Vec3) : -a = ⟨-a.x, -a.y, -a.z⟩ := rfl
theorem smul_def (k : ℚ) (v : Vec3) : k • v = ⟨k * v.x, k * v.y, k * v.z⟩ := rfl

/-- glm dot product. -/
def dot (a b : Vec3) : ℚ := a.x * b.x + a.y * b.y + a.z * b.z

/-- glm cross product. -/
def cross (a b : Vec3) : Vec3 :=
  ⟨a.y * b.z - a.z * b.y, a.z * b.x - a.x * b.z, a.x * b.y - a.y * b.x⟩

theorem dot_self_nonneg (v : Vec3) : 0 ≤ dot v v := by
  unfold dot; nlinarith [sq_nonneg v.x, sq_nonneg v.y, sq_nonneg v.z]

end Vec3

open Vec3

/-- Fuel-bounded integer square root by the divide-by-4 recursion, written
with structural fuel so that it reduces inside the kernel; the recursive
result is forced to a literal by the constructor match before being
reused, keeping evaluation linear under call-by-name reduction. -/
def isqrtAux : Nat → Nat → Nat
  | 0, _ => 0
  | fuel + 1, n =>
    if n < 2 then n
    else
      match 2 * isqrtAux fuel (n / 4) with
      | 0 => if 1 ≤ n then 1 else 0
      | r + 1 => if (r + 2) * (r + 2) ≤ n then r + 2 else r + 1

/-- Integer square root (floor), exact for every n < 4^200; all concrete
numbers in this development are far below that bound. -/
def isqrt (n : Nat) : Nat := isqrtAux 200 n

/-- Exact rational square root: the non-negative root when the argument is a
square of a rational, 0 otherwise.  Models `sqrt` on the exact-arithmetic
inputs used throughout this development.  The result is guarded by the
squaring check, so it is an actual square root whenever it is non-zero. -/
def ratSqrt (q : ℚ) : ℚ :=
  if q ≤ 0 then 0
  else if isqrt q.num.toNat * isqrt q.num.toNat = q.num.toNat ∧
          isqrt q.den * isqrt q.den = q.den then
    (isqrt q.num.toNat : ℚ) / (isqrt q.den : ℚ)
  else 0

theorem ratSqrt_nonneg (q : ℚ) : 0 ≤ ratSqrt q := by
  unfold ratSqrt
  split
  · exact le_refl 0
  · split
    · positivity
    · exact le_refl 0

/-- glm normalize: v / length(v).  In ℚ a division by zero yields the zero
vector (the float code would produce NaN there; no theorem below evaluates
`normalize` at a zero-length vector except where the result is irrelevant). -/
def normalize (v : Vec3) : Vec3 :=
  let len := ratSqrt (dot v v)
  ⟨v.x / len, v.y / len, v.z / len⟩

/-- GLSL reflect(I, N) = I - 2 dot(N, I) N. -/
def reflectV (i n : Vec3) : Vec3 := i - (2 * dot n i) • n

/-- GLSL refract(I, N, eta): k = 1 - eta^2 (1 - dot(N,I)^2); zero vector if
k < 0, else eta I - (eta dot(N,I) + sqrt(k)) N. -/
def refractV (i n : Vec3) (eta : ℚ) : Vec3 :=
  let d := dot n i
  let k := 1 - eta * eta * (1 - d * d)
  if k < 0 then ⟨0, 0, 0⟩ else (eta • i) - ((eta * d + ratSqrt k) • n)

/-- glm clamp(x, lo, hi) = min(max(x, lo), hi). -/
def clampQ (x lo hi : ℚ) : ℚ := min (max x lo) hi

/-- GLSL smoothstep(edge0, edge1, x). -/
def smoothstep (edge0 edge1 x : ℚ) : ℚ :=
  let t := clampQ ((x - edge0) / (edge1 - edge0)) 0 1
  t * t * (3 - 2 * t)

/-- GLSL mix(a, b, t) on vectors with scalar t. -/
def mixV (a b : Vec3) (t : ℚ) : Vec3 := ((1 - t) • a) + (t • b)

/-! ## Refraction-portal variant (src/wormhole_sim.cpp) -/

/-- Wormhole parameters of wormhole_sim.cpp: THROAT_RADIUS = 15.0f. -/
def throatRadius : ℚ := 15

/-- THROAT_CENTER = vec3(0, 0, 0). -/
def throatCenter : Vec3 := ⟨0, 0, 0⟩

/-- Sphere of wormhole_sim.cpp (universe 1 primitives): center, radius, color. -/
structure SphereS where
  center : Vec3
  radius : ℚ
  color : Vec3
deriving DecidableEq, Repr

/-- Cube of wormhole_sim.cpp (universe 2 primitives): center, size, color. -/
structure CubeS where
  center : Vec3
  size : ℚ
  color : Vec3
deriving DecidableEq, Repr

/-- Star of wormhole_sim.cpp: data.xyz = direction, data.w = brightness. -/
structure Star where
  dir : Vec3
  brightness : ℚ
deriving DecidableEq, Repr

/-- Sphere::intersect of wormhole_sim.cpp.  Returns the hit parameter t and
the outward normal, or none.  The C++ writes through out-parameters and
returns a bool; here the same data is an Option. -/
def sphereIntersect (s : SphereS) (rayOrigin rayDir : Vec3) : Option (ℚ × Vec3) :=
  let oc := rayOrigin - s.center
  let a := dot rayDir rayDir
  let b := 2 * dot oc rayDir
  let c := dot oc oc - s.radius * s.radius
  let disc := b * b - 4 * a * c
  if disc < 0 then none
  else
    let t1 := (-b - ratSqrt disc) / (2 * a)
    if 1/1000 < t1 then some (t1, normalize ((rayOrigin + t1 • rayDir) - s.center))
    else
      let t2 := (-b + ratSqrt disc) / (2 * a)
      if 1/1000 < t2 then some (t2, normalize ((rayOrigin + t2 • rayDir) - s.center))
      else none

/-- Cube::intersect of wormhole_sim.cpp (axis-aligned slab test).  Zero
direction components produce 1/0 = 0 here rather than IEEE ±inf; no claim
below depends on the slab test's value at such rays. -/
def cubeIntersect (cb : CubeS) (rayOrigin rayDir : Vec3) : Option (ℚ × Vec3) :=
  let minB := cb.center - ⟨cb.size/2, cb.size/2, cb.size/2⟩
  let maxB := cb.center + ⟨cb.size/2, cb.size/2, cb.size/2⟩
  let t0 : Vec3 := ⟨(minB.x - rayOrigin.x) / rayDir.x, (minB.y - rayOrigin.y) / rayDir.y,
                    (minB.z - rayOrigin.z) / rayDir.z⟩
  let t1 : Vec3 := ⟨(maxB.x - rayOrigin.x) / rayDir.x, (maxB.y - rayOrigin.y) / rayDir.y,
                    (maxB.z - rayOrigin.z) / rayDir.z⟩
  let tmin : Vec3 := ⟨min t0.x t1.x, min t0.y t1.y, min t0.z t1.z⟩
  let tmax : Vec3 := ⟨max t0.x t1.x, max t0.y t1.y, max t0.z t1.z⟩
  let tNear := max (max tmin.x tmin.y) tmin.z
  let tFar := min (min tmax.x tmax.y) tmax.z
  if tNear > tFar ∨ tFar < 1/1000 then none
  else
    let t := if 1/1000 < tNear then tNear else tFar
    let d := (rayOrigin + t • rayDir) - cb.center
    let n : Vec3 :=
      if |d.x| > |d.y| ∧ |d.x| > |d.z| then ⟨if d.x < 0 then -1 else if d.x = 0 then 0 else 1, 0, 0⟩
      else if |d.y| > |d.z| then ⟨0, if d.y < 0 then -1 else if d.y = 0 then 0 else 1, 0⟩
      else ⟨0, 0, if d.z < 0 then -1 else if d.z = 0 then 0 else 1⟩
    some (t, n)

/-- WormholeThroat::intersect of wormhole_sim.cpp: same quadratic as the
sphere test against (throatCenter, throatRadius), returning only t. -/
def throatIntersect (rayOrigin rayDir : Vec3) : Option ℚ :=
  let oc := rayOrigin - throatCenter
  let a := dot rayDir rayDir
  let b := 2 * dot oc rayDir
  let c := dot oc oc - throatRadius * throatRadius
  let disc := b * b - 4 * a * c
  if disc < 0 then none
  else
    let t1 := (-b - ratSqrt disc) / (2 * a)
    if 1/1000 < t1 then some t1
    else
      let t2 := (-b + ratSqrt disc) / (2 * a)
      if 1/1000 < t2 then some t2
      else none

/-- HitInfo of wormhole_sim.cpp: hit flag, distance (sentinel 1e10),
normal and color (zero-initialised here; the C++ leaves them default). -/
structure HitS where
  hit : Bool
  distance : ℚ
  normal : Vec3
  color : Vec3
deriving DecidableEq, Repr

/-- The default HitInfo: hit = false, distance = 1e10f. -/
def noHitS : HitS := ⟨false, 10 ^ 10, ⟨0, 0, 0⟩, ⟨0, 0, 0⟩⟩

/-- Loop body of traceScene over the sphere list. -/
def scanSphereStep (origin direction : Vec3) (acc : HitS) (s : SphereS) : HitS :=
  match sphereIntersect s origin direction with
  | some (t, n) => if t < acc.distance then ⟨true, t, n, s.color⟩ else acc
  | none => acc

/-- Loop body of traceScene over the cube list. -/
def scanCubeStep (origin direction : Vec3) (acc : HitS) (cb : CubeS) : HitS :=
  match cubeIntersect cb origin direction with
  | some (t, n) => if t < acc.distance then ⟨true, t, n, cb.color⟩ else acc
  | none => acc

/-- traceScene of wormhole_sim.cpp: universe 1 scans the sphere list,
any other universe value scans the cube list, keeping the closest hit. -/
def traceScene (spheres : List SphereS) (cubes : List CubeS)
    (origin direction : Vec3) (uni : ℤ) : HitS :=
  if uni = 1 then
    spheres.foldl (scanSphereStep origin direction) noHitS
  else
    cubes.foldl (scanCubeStep origin direction) noHitS

/-- Case-1 shading of traceRay in wormhole_sim.cpp (the identical formula is
repeated inline for the through-the-portal hit; this definition is used for
both occurrences).  Light direction is the hard-coded normalize(vec3(1,1,1));
ambient = 0.3. -/
def shadeLocal (origin direction : Vec3) (h : HitS) : Vec3 :=
  let viewDir := normalize (origin - (origin + h.distance • direction))
  let lightDir := normalize ⟨1, 1, 1⟩
  let diffuse := max 0 (dot h.normal lightDir)
  let reflectDir := reflectV (-lightDir) h.normal
  let spec := (max (dot viewDir reflectDir) 0) ^ 32
  ((3/10 + diffuse * (7/10)) • h.color) + (spec • (⟨1/2, 1/2, 1/2⟩ : Vec3))

/-- Per-star accumulation step of getStarfieldColor: the star's intensity is
brightness * smoothstep(0.005, 0, acos(dot(direction, starDir))), added as
white light when positive. -/
def starStep (acosQ : ℚ → ℚ) (direction : Vec3) (color : Vec3) (star : Star) : Vec3 :=
  if 0 < star.brightness * smoothstep (1/200) 0 (acosQ (dot direction star.dir)) then
    color + ⟨star.brightness * smoothstep (1/200) 0 (acosQ (dot direction star.dir)),
             star.brightness * smoothstep (1/200) 0 (acosQ (dot direction star.dir)),
             star.brightness * smoothstep (1/200) 0 (acosQ (dot direction star.dir))⟩
  else color

/-- getStarfieldColor of wormhole_sim.cpp.  The float acos has no exact
rational counterpart, so the angular distance function is an explicit
parameter; every theorem below holds for an arbitrary acosQ. -/
def getStarfieldColor (acosQ : ℚ → ℚ) (stars : List Star) (direction : Vec3) : Vec3 :=
  stars.foldl (starStep acosQ direction) ⟨0, 0, 0⟩

/-- Case-2 (portal) block of traceRay in wormhole_sim.cpp, for a throat hit
at parameter tThroat. -/
def portalBranch (acosQ : ℚ → ℚ) (spheres : List SphereS) (cubes : List CubeS)
    (stars : List Star) (currentUniverse : ℤ) (origin direction : Vec3) (tThroat : ℚ) : Vec3 :=
  let pIn := origin + tThroat • direction
  let hitNormal := normalize (pIn - throatCenter)
  let fresnel := (1 - |dot direction hitNormal|) ^ 3
  let ratioIdx := 1 / (3/2)
  let refractedDir := refractV direction hitNormal ratioIdx
  let newOrigin := (pIn - (throatRadius * 2) • hitNormal) + ((1/10 : ℚ)) • refractedDir
  let otherUniverse : ℤ := if currentUniverse = 1 then 2 else 1
  let otherHit := traceScene spheres cubes newOrigin refractedDir otherUniverse
  let finalColor :=
    if otherHit.hit then shadeLocal newOrigin refractedDir otherHit
    else getStarfieldColor acosQ stars refractedDir
  mixV finalColor ⟨1/2, 4/5, 1⟩ (fresnel * (4/5))

/-- Case-3 background of traceRay: universe 1 sees the starfield, universe 2
the gradient mix(vec3(0.02,0.01,0.01), vec3(0.3,0.1,0.2), 0.5 (dir.y + 1)). -/
def localBackground (acosQ : ℚ → ℚ) (stars : List Star) (currentUniverse : ℤ)
    (direction : Vec3) : Vec3 :=
  if currentUniverse = 1 then getStarfieldColor acosQ stars direction
  else mixV ⟨1/50, 1/100, 1/100⟩ ⟨3/10, 1/10, 1/5⟩ ((direction.y + 1) / 2)

/-- traceRay of wormhole_sim.cpp (refraction-portal variant). -/
def traceRay (acosQ : ℚ → ℚ) (spheres : List SphereS) (cubes : List CubeS)
    (stars : List Star) (currentUniverse : ℤ) (origin direction : Vec3) : Vec3 :=
  let throatRes := throatIntersect origin direction
  let hitsThroat := throatRes.isSome
  let tThroat := throatRes.getD 0
  let sceneHit := traceScene spheres cubes origin direction currentUniverse
  if sceneHit.hit = true ∧ (hitsThroat = false ∨ sceneHit.distance < tThroat) then
    shadeLocal origin direction sceneHit
  else if hitsThroat = true then
    portalBranch acosQ spheres cubes stars currentUniverse origin direction tThroat
  else
    localBackground acosQ stars currentUniverse direction

/-! ## Geodesic RK4 variant (src/wormhole_geodesic.cpp) -/

/-- THROAT_RADIUS = 25.0f of wormhole_geodesic.cpp. -/
def throatRadiusG : ℚ := 25

/-- Sphere of wormhole_geodesic.cpp: center, radius, color, isEmissive,
universeID. -/
structure SphereG where
  center : Vec3
  radius : ℚ
  color : Vec3
  isEmissive : Bool
  universeID : ℤ
deriving DecidableEq, Repr

/-- HitInfo of wormhole_geodesic.cpp. -/
structure HitG where
  hit : Bool
  distance : ℚ
  normal : Vec3
  color : Vec3
  isEmissive : Bool
deriving DecidableEq, Repr

/-- The initial closestHit: hit = false, distance = 1e10. -/
def noHitG : HitG := ⟨false, 10 ^ 10, ⟨0, 0, 0⟩, ⟨0, 0, 0⟩, false⟩

/-- The accepted hit parameter of the per-sphere test inside intersectScene
of wormhole_geodesic.cpp: only the smaller quadratic root
t = (-b - sqrt(disc)) / (2a) is considered, accepted when disc ≥ 0 and
t > 0.001 (the universe filter and the running-minimum comparison live in
the loop, not here). -/
def sphereCandG (origin direction : Vec3) (s : SphereG) : Option ℚ :=
  let oc := origin - s.center
  let a := dot direction direction
  let b := 2 * dot oc direction
  let c := dot oc oc - s.radius * s.radius
  let disc := b * b - 4 * a * c
  if 0 ≤ disc then
    let t := (-b - ratSqrt disc) / (2 * a)
    if 1/1000 < t then some t else none
  else none

/-- The HitInfo recorded for an accepted sphere hit at parameter t. -/
def mkHitG (origin direction : Vec3) (s : SphereG) (t : ℚ) : HitG :=
  ⟨true, t, normalize ((origin + t • direction) - s.center), s.color, s.isEmissive⟩

/-- Loop body of intersectScene of wormhole_geodesic.cpp. -/
def scanSphereGStep (origin direction : Vec3) (uni : ℤ) (acc : HitG) (s : SphereG) : HitG :=
  if s.universeID = uni then
    match sphereCandG origin direction s with
    | some t => if t < acc.distance then mkHitG origin direction s t else acc
    | none => acc
  else acc

/-- intersectScene of wormhole_geodesic.cpp: linear scan over the sphere
list, considering only spheres whose universeID matches, keeping the
closest accepted hit. -/
def intersectScene (spheres : List SphereG) (origin direction : Vec3) (uni : ℤ) : HitG :=
  spheres.foldl (scanSphereGStep origin direction uni) noHitG

/-- State of a geodesic ray.  The C++ GeodesicRay also carries dir, rho and
phi, which traceRay never reads after initialisation; they are omitted.
The field l is READ by `derivatives` but never written anywhere in
traceRay's loop: in the C++ it is an uninitialised float.  It is kept in
the state and supplied by the caller as an arbitrary value. -/
structure GeoState where
  pos : Vec3
  momentum : Vec3
  univ : ℤ
  l : ℚ
deriving DecidableEq, Repr

/-- derivatives of wormhole_geodesic.cpp: position derivative is the
momentum; momentum derivative is -(b0^2 l / r^3) pos with
r = sqrt(l^2 + b0^2), b0 = THROAT_RADIUS. -/
def derivatives (l : ℚ) (pos momentum : Vec3) : Vec3 × Vec3 :=
  let r := ratSqrt (l * l + throatRadiusG * throatRadiusG)
  let r3 := r * r * r
  (momentum, (-(throatRadiusG * throatRadiusG * l / r3)) • pos)

/-- step_size = 0.5f of wormhole_geodesic.cpp. -/
def stepSize : ℚ := 1/2

/-- One classical RK4 update of (pos, momentum).  The temp.l read by the
k2..k4 derivative evaluations is uninitialised in the C++; it is the
explicit parameter tl here. -/
def rk4Advance (tl : ℚ) (s : GeoState) : Vec3 × Vec3 :=
  let k1 := derivatives s.l s.pos s.momentum
  let k2 := derivatives tl (s.pos + (stepSize/2) • k1.1) (s.momentum + (stepSize/2) • k1.2)
  let k3 := derivatives tl (s.pos + (stepSize/2) • k2.1) (s.momentum + (stepSize/2) • k2.2)
  let k4 := derivatives tl (s.pos + stepSize • k3.1) (s.momentum + stepSize • k3.2)
  (s.pos + (stepSize/6) • (k1.1 + ((2:ℚ) • k2.1) + ((2:ℚ) • k3.1) + k4.1),
   s.momentum + (stepSize/6) • (k1.2 + ((2:ℚ) • k2.2) + ((2:ℚ) • k3.2) + k4.2))

/-- Universe flip performed on throat traversal: 1 ↔ 2. -/
def flipUniverse (u : ℤ) : ℤ := if u = 1 then 2 else 1

/-- Squared distance from the origin of the RK4-advanced position
(dist_from_center_sq in the C++; the teleport negation does not change it). -/
def stepDistSq (tl : ℚ) (s : GeoState) : ℚ :=
  let pm := rk4Advance tl s
  dot pm.1 pm.1

/-- One full loop-body state update of traceRay in wormhole_geodesic.cpp:
RK4 advance, then the throat-traversal check (squared distance below
THROAT_RADIUS^2 negates the position and flips the universe). -/
def geoStep (tl : ℚ) (s : GeoState) : GeoState :=
  let pm := rk4Advance tl s
  if dot pm.1 pm.1 < throatRadiusG * throatRadiusG then
    ⟨-pm.1, pm.2, flipUniverse s.univ, s.l⟩
  else
    ⟨pm.1, pm.2, s.univ, s.l⟩

/-- Shading performed on a scene hit inside traceRay of
wormhole_geodesic.cpp.  Emissive hits return their color directly.
Otherwise the sun position is read from spheres[0] (universe 1) or
spheres[3] (any other universe) WITHOUT a bounds check: in the C++ this is
an out-of-bounds vector access when the list is too short, modelled here
as none.  dir is the normalize(momentum) the caller passes. -/
def geoShade (spheres : List SphereG) (uni : ℤ) (pos dir : Vec3) (h : HitG) : Option Vec3 :=
  if h.isEmissive then some h.color
  else
    match (if uni = 1 then spheres.get? 0 else spheres.get? 3) with
    | none => none
    | some sun =>
      let lightDir := normalize (sun.center - (pos + h.distance • dir))
      let diffuse := max 0 (dot h.normal lightDir)
      some ((1/5 + (4/5) * diffuse) • h.color)

/-- The scene-hit test at the top of each loop iteration: a hit closer
than step_size * 2.0 = 1 terminates the ray. -/
def geoHitCond (spheres : List SphereG) (s : GeoState) : Prop :=
  let h := intersectScene spheres s.pos (normalize s.momentum) s.univ
  h.hit = true ∧ h.distance < stepSize * 2

instance (spheres : List SphereG) (s : GeoState) : Decidable (geoHitCond spheres s) := by
  unfold geoHitCond; infer_instance

/-- The fuel-indexed main loop of traceRay in wormhole_geodesic.cpp.
Fuel 0 is the exhausted step budget (return black); otherwise test the
scene, shade on a close hit, advance by RK4 + teleport, and break with
black when the squared distance exceeds 20000^2. -/
def geoLoop (tl : ℚ) (spheres : List SphereG) : Nat → GeoState → Option Vec3
  | 0, _ => some ⟨0, 0, 0⟩
  | n + 1, s =>
    let dirn := normalize s.momentum
    let h := intersectScene spheres s.pos dirn s.univ
    if h.hit = true ∧ h.distance < stepSize * 2 then
      geoShade spheres s.univ s.pos dirn h
    else if 20000 * 20000 < stepDistSq tl s then some ⟨0, 0, 0⟩
    else geoLoop tl spheres n (geoStep tl s)

/-- traceRay of wormhole_geodesic.cpp: max_steps = 1000, initial momentum
is the ray direction, initial universe 1.  (The C++ also computes an unused
intersectScene(origin, direction, 1) before the loop; being dead code it is
omitted.)  tl and l0 stand for the two uninitialised float reads
(temp.l and geoRay.l). -/
def geoTraceRay (tl l0 : ℚ) (spheres : List SphereG) (origin direction : Vec3) : Option Vec3 :=
  geoLoop tl spheres 1000 ⟨origin, direction, 1, l0⟩

/-- Number of loop iterations among the first n from state s whose
RK4-advanced position lands inside the throat (and hence flips the
universe). -/
def countFlips (tl : ℚ) : GeoState → Nat → Nat
  | _, 0 => 0
  | s, n + 1 =>
    (if stepDistSq tl s < throatRadiusG * throatRadiusG then 1 else 0) +
      countFlips tl (geoStep tl s) n

/-! ## Camera model (src/wormhole_sim.cpp)

The camera theorems are structural and hold for any interpretation of the
trigonometric functions; sinQ/cosQ below are fixed computable Taylor
polynomials standing for the C library's float sin/cos so that concrete
states can be evaluated. -/

/-- Taylor polynomial (degree 9) for sin, modelling float sin on the
argument ranges the camera uses. -/
def sinQ (x : ℚ) : ℚ := x - x^3/6 + x^5/120 - x^7/5040 + x^9/362880

/-- Taylor polynomial (degree 8) for cos, modelling float cos on the
argument ranges the camera uses. -/
def cosQ (x : ℚ) : ℚ := 1 - x^2/2 + x^4/24 - x^6/720 + x^8/40320

/-- Rational stand-in for M_PI = 3.14159265358979323846. -/
def piQ : ℚ := 314159265358979323846 / 100000000000000000000

/-- Camera of wormhole_sim.cpp.  The mouse-drag bookkeeping fields
(dragging, panning, lastX, lastY) play no part in the position logic and
are omitted. -/
structure CameraS where
  position : Vec3
  target : Vec3
  up : Vec3
  fov : ℚ
  azimuth : ℚ
  elevation : ℚ
  radius : ℚ
deriving DecidableEq, Repr

/-- Camera() constructor: position (0,0,80), target 0, up (0,1,0),
fov 60, azimuth 0, elevation M_PI/2, radius 80. -/
def initCamera : CameraS :=
  ⟨⟨0, 0, 80⟩, ⟨0, 0, 0⟩, ⟨0, 1, 0⟩, 60, 0, piQ / 2, 80⟩

/-- The spherical-to-cartesian offset radius * (sin el cos az, cos el,
sin el sin az) that updatePosition adds to the target. -/
def sphOffset (c : CameraS) : Vec3 :=
  ⟨c.radius * sinQ c.elevation * cosQ c.azimuth,
   c.radius * cosQ c.elevation,
   c.radius * sinQ c.elevation * sinQ c.azimuth⟩

/-- Camera::updatePosition. -/
def updatePosition (c : CameraS) : CameraS :=
  { c with position := c.target + sphOffset c }

/-- Camera::orbit(dx, dy): azimuth -= dx * 0.01, elevation += dy * 0.01
clamped to [0.1, M_PI - 0.1], then updatePosition. -/
def orbit (c : CameraS) (dx dy : ℚ) : CameraS :=
  updatePosition
    { c with azimuth := c.azimuth - dx / 100,
             elevation := clampQ (c.elevation + dy / 100) (1/10) (piQ - 1/10) }

/-- Camera::pan(dx, dy). -/
def pan (c : CameraS) (dx dy : ℚ) : CameraS :=
  let forward := normalize (c.target - c.position)
  let right := normalize (cross forward c.up)
  let localUp := normalize (cross right forward)
  let panSpeed := (1/10) * (c.radius / 100)
  updatePosition
    { c with target := (c.target - (dx * panSpeed) • right) + (dy * panSpeed) • localUp }

/-- Camera::zoom(delta): radius *= (1 - delta * 0.1), clamped to [20, 500],
then updatePosition. -/
def zoom (c : CameraS) (delta : ℚ) : CameraS :=
  updatePosition { c with radius := clampQ (c.radius * (1 - delta / 10)) 20 500 }

/-- cameraSpeed = 2.5f of processInput. -/
def cameraSpeed : ℚ := 5/2

/-- Translation applied by each fly key of processInput: position and
target both move by v; the spherical fields are NOT updated and
updatePosition is NOT called. -/
def flyTranslate (c : CameraS) (v : Vec3) : CameraS :=
  { c with position := c.position + v, target := c.target + v }

/-- The forward vector processInput computes. -/
def flyForwardVec (c : CameraS) : Vec3 := normalize (c.target - c.position)

/-- The right vector processInput computes. -/
def flyRightVec (c : CameraS) : Vec3 := normalize (cross (flyForwardVec c) c.up)

/-- The (unnormalised) local up vector processInput computes. -/
def flyUpVec (c : CameraS) : Vec3 := cross (flyRightVec c) (flyForwardVec c)

/-- Camera states reachable from the constructor state through the
mutators of wormhole_sim.cpp: orbit, pan, zoom, and the six fly-by-key
translations of processInput (W/S/A/D, Space, Shift+Space). -/
inductive Reach : CameraS → Prop
  | init : Reach initCamera
  | orbit (c : CameraS) (dx dy : ℚ) : Reach c → Reach (orbit c dx dy)
  | pan (c : CameraS) (dx dy : ℚ) : Reach c → Reach (pan c dx dy)
  | zoom (c : CameraS) (delta : ℚ) : Reach c → Reach (zoom c delta)
  | keyW (c : CameraS) : Reach c → Reach (flyTranslate c (cameraSpeed • flyForwardVec c))
  | keyS (c : CameraS) : Reach c → Reach (flyTranslate c (-(cameraSpeed • flyForwardVec c)))
  | keyA (c : CameraS) : Reach c → Reach (flyTranslate c (-(cameraSpeed • flyRightVec c)))
  | keyD (c : CameraS) : Reach c → Reach (flyTranslate c (cameraSpeed • flyRightVec c))
  | keyUp (c : CameraS) : Reach c → Reach (flyTranslate c (cameraSpeed • flyUpVec c))
  | keyDown (c : CameraS) : Reach c → Reach (flyTranslate c (-(cameraSpeed • flyUpVec c)))

/-- The camera's two representations agree: the cartesian position is the
target plus the spherical offset. -/
def RepConsistent (c : CameraS) : Prop := c.position = c.target + sphOffset c

/-- The elevation lies in the clamp range [0.1, M_PI - 0.1], so orbit's
clamp is the identity on it. -/
def ElevOK (c : CameraS) : Prop := 1/10 ≤ c.elevation ∧ c.elevation ≤ piQ - 1/10

instance (c : CameraS) : Decidable (RepConsistent c) := by
  unfold RepConsistent; infer_instance

instance (c : CameraS) : Decidable (ElevOK c) := by
  unfold ElevOK; infer_instance

/-! ## Spec-side definitions for refinement claims -/

/-- The portal color as the specification words it: Fresnel term
(1 - |dot(dir, throatNormal)|)^3, Snell refraction with index ratio 1/1.5,
continuation origin = entry point - throatNormal * (2 * throatRadius)
+ refractedDir * epsilon (epsilon = 0.1), traced only against the other
universe's scene, starfield substituted on a miss, composed as
mix(otherUniverseShaded, edgeGlowColor, fresnel * 0.8) with edge glow
color (0.5, 0.8, 1.0). -/
def portalColorSpec (acosQ : ℚ → ℚ) (spheres : List SphereS) (cubes : List CubeS)
    (stars : List Star) (currentUniverse : ℤ) (origin direction : Vec3) (tThroat : ℚ) : Vec3 :=
  let entry := origin + tThroat • direction
  let throatNormal := normalize (entry - throatCenter)
  let fresnel := (1 - |dot direction throatNormal|) ^ 3
  let refractedDir := refractV direction throatNormal (1 / (3/2))
  let newOrigin := (entry + ((-(2 * throatRadius)) • throatNormal)) + ((1/10 : ℚ) • refractedDir)
  let other : ℤ := if currentUniverse = 1 then 2 else 1
  let otherHit := traceScene spheres cubes newOrigin refractedDir other
  let shaded :=
    if otherHit.hit then shadeLocal newOrigin refractedDir otherHit
    else getStarfieldColor acosQ stars refractedDir
  mixV shaded ⟨1/2, 4/5, 1⟩ (fresnel * (4/5))

/-! ## General lemmas -/

theorem Vec3.eq_of_components {a b : Vec3} (hx : a.x = b.x) (hy : a.y = b.y)
    (hz : a.z = b.z) : a = b := by
  cases a; cases b; simp_all

/-- Subtracting a scaled vector is adding the negated scale. -/
theorem sub_smul_eq_add_neg_smul (a : Vec3) (k : ℚ) (n : Vec3) :
    a - k • n = a + (-k) • n := by
  cases a; cases n
  apply Vec3.eq_of_components <;>
    simp [Vec3.sub_def, Vec3.add_def, Vec3.smul_def] <;> ring

/-- The portal block of the implementation equals the specification's
portal color formula. -/
theorem portalBranch_eq_spec (acosQ : ℚ → ℚ) (spheres : List SphereS) (cubes : List CubeS)
    (stars : List Star) (uni : ℤ) (origin direction : Vec3) (tThroat : ℚ) :
    portalBranch acosQ spheres cubes stars uni origin direction tThroat =
      portalColorSpec acosQ spheres cubes stars uni origin direction tThroat := by
  unfold portalBranch portalColorSpec
  have h : ∀ p n r : Vec3,
      ((p - (throatRadius * 2) • n) + ((1/10 : ℚ) • r)) =
        ((p + ((-(2 * throatRadius)) • n)) + ((1/10 : ℚ) • r)) := by
    intro p n r
    rw [sub_smul_eq_add_neg_smul]
    have : -(throatRadius * 2) = -(2 * throatRadius) := by ring
    rw [this]
  simp only [h]

/-- traceScene in universe 1 reads only the sphere list. -/
theorem traceScene_universe1 (sph : List SphereS) (cub cub' : List CubeS) (o d : Vec3) :
    traceScene sph cub o d 1 = traceScene sph cub' o d 1 := by
  simp [traceScene]

/-- traceScene in universe 2 reads only the cube list. -/
theorem traceScene_universe2 (sph sph' : List SphereS) (cub : List CubeS) (o d : Vec3) :
    traceScene sph cub o d 2 = traceScene sph' cub o d 2 := by
  simp [traceScene]

/-- When the ray misses the throat, traceRay is local shading or local
background, decided only by the local scene query. -/
theorem traceRay_miss_throat (acosQ : ℚ → ℚ) (sph : List SphereS) (cub : List CubeS)
    (stars : List Star) (uni : ℤ) (o d : Vec3)
    (hmiss : throatIntersect o d = none) :
    traceRay acosQ sph cub stars uni o d =
      (if (traceScene sph cub o d uni).hit = true
       then shadeLocal o d (traceScene sph cub o d uni)
       else localBackground acosQ stars uni d) := by
  unfold traceRay
  rw [hmiss]
  simp

/-- When the throat is hit at tThroat and no strictly closer local hit
exists, traceRay takes the portal branch. -/
theorem traceRay_portal_case (acosQ : ℚ → ℚ) (sph : List SphereS) (cub : List CubeS)
    (stars : List Star) (uni : ℤ) (o d : Vec3) (tThroat : ℚ)
    (hth : throatIntersect o d = some tThroat)
    (hloc : ¬((traceScene sph cub o d uni).hit = true ∧
              (traceScene sph cub o d uni).distance < tThroat)) :
    traceRay acosQ sph cub stars uni o d =
      portalBranch acosQ sph cub stars uni o d tThroat := by
  unfold traceRay
  rw [hth]
  simp only [Option.isSome_some, Option.getD_some]
  rw [if_neg (fun hcon => hloc ⟨hcon.1, hcon.2.resolve_left (by simp)⟩)]
  simp

/-- When the throat is hit and a strictly closer local hit exists, traceRay
shades the local hit. -/
theorem traceRay_local_case (acosQ : ℚ → ℚ) (sph : List SphereS) (cub : List CubeS)
    (stars : List Star) (uni : ℤ) (o d : Vec3) (tThroat : ℚ)
    (hth : throatIntersect o d = some tThroat)
    (hhit : (traceScene sph cub o d uni).hit = true)
    (hlt : (traceScene sph cub o d uni).distance < tThroat) :
    traceRay acosQ sph cub stars uni o d = shadeLocal o d (traceScene sph cub o d uni) := by
  unfold traceRay
  rw [hth]
  simp only [Option.isSome_some, Option.getD_some]
  rw [if_pos ⟨hhit, Or.inr hlt⟩]

/-! ## Example constants used by witnesses and counterexamples -/

/-- Concrete stand-in for acos; all example scenes have an empty star list,
so the angular function's values are never used. -/
def exAcos : ℚ → ℚ := fun _ => 0

/-- Example ray origin (0, 0, 80) — the initial camera position. -/
def exO : Vec3 := ⟨0, 0, 80⟩

/-- Example ray direction (0, 0, -1), straight at the throat. -/
def exD : Vec3 := ⟨0, 0, -1⟩

/-- Universe-1 sphere whose hit distance from exO along exD is exactly 65,
equal to the throat entry distance 80 - 15 = 65. -/
def exSph : List SphereS := [⟨⟨0, 0, 10⟩, 5, ⟨1, 0, 0⟩⟩]

/-- Universe-1 sphere hit at distance 15, strictly before the throat. -/
def exSphNear : List SphereS := [⟨⟨0, 0, 60⟩, 5, ⟨1, 0, 0⟩⟩]

/-! ## Claims C1, C2, C7, C10 -/

/-- C1: for every ray in the refraction-portal variant that reaches the
throat sphere with no strictly closer local-universe hit, traceRay returns
exactly the spec's composition: fresnel = (1 - |dot(dir, throatNormal)|)^3,
Snell refraction with ratio 1/1.5, continuation origin offset by
-throatNormal*(2*throatRadius) + refractedDir*0.1, traced only against the
other universe's scene, composed as mix(shaded, edgeGlow, fresnel*0.8),
with the starfield substituted when the refracted ray misses. -/
theorem claim_C1_portal_refinement (acosQ : ℚ → ℚ) (sph : List SphereS) (cub : List CubeS)
    (stars : List Star) (uni : ℤ) (o d : Vec3) (tThroat : ℚ)
    (hth : throatIntersect o d = some tThroat)
    (hloc : ¬((traceScene sph cub o d uni).hit = true ∧
              (traceScene sph cub o d uni).distance < tThroat)) :
    traceRay acosQ sph cub stars uni o d =
      portalColorSpec acosQ sph cub stars uni o d tThroat := by
  rw [traceRay_portal_case acosQ sph cub stars uni o d tThroat hth hloc]
  exact portalBranch_eq_spec acosQ sph cub stars uni o d tThroat

unseal Rat.add Rat.sub Rat.mul Rat.inv in
/-- Witness for C1: the ray from (0,0,80) along (0,0,-1) in an empty local
scene hits the throat at t = 65 and traceRay equals the spec's portal
color there. -/
theorem claim_C1_portal_refinement_witness :
    throatIntersect exO exD = some 65 ∧
    traceRay exAcos [] [] [] 1 exO exD = portalColorSpec exAcos [] [] [] 1 exO exD 65 :=
  ⟨by decide, claim_C1_portal_refinement exAcos [] [] [] 1 exO exD 65 (by decide) (by decide)⟩

unseal Rat.add Rat.sub Rat.mul Rat.inv in
/-- C2 counterexample: with a local sphere whose hit distance exactly
equals the throat distance (both 65), traceRay does NOT shade the local
object — the portal branch runs instead (the code's strict comparison
sceneHit.distance < t_throat sends exact ties to the throat). -/
theorem claim_C2_counterexample :
    throatIntersect exO exD = some 65 ∧
    (traceScene exSph [] exO exD 1).hit = true ∧
    (traceScene exSph [] exO exD 1).distance = 65 ∧
    traceRay exAcos exSph [] [] 1 exO exD ≠
      shadeLocal exO exD (traceScene exSph [] exO exD 1) := by
  refine ⟨by decide, by decide, by decide, by decide⟩

/-- C2 amended: a local hit takes priority exactly when its distance is
STRICTLY smaller than the throat intersection distance; an exact tie of
the two distances resolves in favor of the throat (portal traversal), not
the local hit. -/
theorem claim_C2_amended_tiebreak (acosQ : ℚ → ℚ) (sph : List SphereS) (cub : List CubeS)
    (stars : List Star) (uni : ℤ) (o d : Vec3) (tThroat : ℚ)
    (hth : throatIntersect o d = some tThroat) :
    ((traceScene sph cub o d uni).hit = true →
      (traceScene sph cub o d uni).distance < tThroat →
      traceRay acosQ sph cub stars uni o d = shadeLocal o d (traceScene sph cub o d uni)) ∧
    ((traceScene sph cub o d uni).distance = tThroat →
      traceRay acosQ sph cub stars uni o d = portalBranch acosQ sph cub stars uni o d tThroat) := by
  constructor
  · intro hhit hlt
    exact traceRay_local_case acosQ sph cub stars uni o d tThroat hth hhit hlt
  · intro htie
    apply traceRay_portal_case acosQ sph cub stars uni o d tThroat hth
    intro hcon
    exact absurd hcon.2 (htie ▸ lt_irrefl tThroat)

unseal Rat.add Rat.sub Rat.mul Rat.inv in
/-- Witness for the amended C2: a local sphere at distance 15 beats the
throat at distance 65 and is shaded locally. -/
theorem claim_C2_amended_tiebreak_witness :
    throatIntersect exO exD = some 65 ∧
    (traceScene exSphNear [] exO exD 1).hit = true ∧
    (traceScene exSphNear [] exO exD 1).distance < 65 ∧
    traceRay exAcos exSphNear [] [] 1 exO exD =
      shadeLocal exO exD (traceScene exSphNear [] exO exD 1) :=
  ⟨by decide, by decide, by decide,
    (claim_C2_amended_tiebreak exAcos exSphNear [] [] 1 exO exD 65 (by decide)).1
      (by decide) (by decide)⟩

/-- C7: a ray that misses the throat is shaded from the current universe's
primitives and background alone — changing the other universe's scene
contents (or emptying it) cannot change the result. -/
theorem claim_C7_no_cross_contamination (acosQ : ℚ → ℚ) (sph sph' : List SphereS)
    (cub cub' : List CubeS) (stars : List Star) (o d : Vec3)
    (hmiss : throatIntersect o d = none) :
    traceRay acosQ sph cub stars 1 o d = traceRay acosQ sph cub' stars 1 o d ∧
    traceRay acosQ sph cub stars 1 o d = traceRay acosQ sph [] stars 1 o d ∧
    traceRay acosQ sph cub stars 2 o d = traceRay acosQ sph' cub stars 2 o d ∧
    traceRay acosQ sph cub stars 2 o d = traceRay acosQ [] cub stars 2 o d := by
  refine ⟨?_, ?_, ?_, ?_⟩ <;>
    rw [traceRay_miss_throat acosQ _ _ stars _ o d hmiss,
        traceRay_miss_throat acosQ _ _ stars _ o d hmiss]
  · rw [traceScene_universe1 sph cub cub']
  · rw [traceScene_universe1 sph cub []]
  · rw [traceScene_universe2 sph sph' cub]
  · rw [traceScene_universe2 sph [] cub]

unseal Rat.add Rat.sub Rat.mul Rat.inv in
/-- Witness for C7: the ray from (0,0,80) along (0,0,1) points away from
the throat and misses it. -/
theorem claim_C7_no_cross_contamination_witness :
    throatIntersect exO ⟨0, 0, 1⟩ = none ∧
    traceRay exAcos exSph [] [] 1 exO ⟨0, 0, 1⟩ =
      traceRay exAcos exSph [⟨⟨80, 40, 0⟩, 18, ⟨1, 1, 0⟩⟩] [] 1 exO ⟨0, 0, 1⟩ :=
  ⟨by decide,
    (claim_C7_no_cross_contamination exAcos exSph exSph [] [⟨⟨80, 40, 0⟩, 18, ⟨1, 1, 0⟩⟩]
      [] exO ⟨0, 0, 1⟩ (by decide)).1⟩

/-- Starfield fold invariant: equal channels, and the x channel never
decreases. -/
theorem starfield_foldl_invariant (acosQ : ℚ → ℚ) (dir : Vec3) (stars : List Star) :
    ∀ acc : Vec3, acc.x = acc.y → acc.y = acc.z →
      ((stars.foldl (starStep acosQ dir) acc).x = (stars.foldl (starStep acosQ dir) acc).y ∧
       (stars.foldl (starStep acosQ dir) acc).y = (stars.foldl (starStep acosQ dir) acc).z ∧
       acc.x ≤ (stars.foldl (starStep acosQ dir) acc).x) := by
  induction stars with
  | nil => intro acc hxy hyz; exact ⟨hxy, hyz, le_refl _⟩
  | cons st rest ih =>
    intro acc hxy hyz
    simp only [List.foldl_cons]
    unfold starStep
    by_cases h : 0 < st.brightness * smoothstep (1/200) 0 (acosQ (dot dir st.dir))
    · rw [if_pos h]
      have step := ih (acc + ⟨st.brightness * smoothstep (1/200) 0 (acosQ (dot dir st.dir)),
        st.brightness * smoothstep (1/200) 0 (acosQ (dot dir st.dir)),
        st.brightness * smoothstep (1/200) 0 (acosQ (dot dir st.dir))⟩)
        (by simp [Vec3.add_def, hxy]) (by simp [Vec3.add_def, hyz])
      refine ⟨step.1, step.2.1, le_trans ?_ step.2.2⟩
      show acc.x ≤ acc.x + st.brightness * smoothstep (1/200) 0 (acosQ (dot dir st.dir))
      linarith
    · rw [if_neg h]
      exact ih acc hxy hyz

/-- C10: for every direction and star list (and any angular-distance
function), getStarfieldColor has equal red, green and blue channels and is
non-negative — the starfield is pure additive white light with the single
fixed angular size 0.005. -/
theorem claim_C10_starfield_white_nonneg (acosQ : ℚ → ℚ) (stars : List Star) (dir : Vec3) :
    (getStarfieldColor acosQ stars dir).x = (getStarfieldColor acosQ stars dir).y ∧
    (getStarfieldColor acosQ stars dir).y = (getStarfieldColor acosQ stars dir).z ∧
    0 ≤ (getStarfieldColor acosQ stars dir).x := by
  have h := starfield_foldl_invariant acosQ dir stars ⟨0, 0, 0⟩ rfl rfl
  exact ⟨h.1, h.2.1, h.2.2⟩

/-! ## Claims C3 and C4 (geodesic variant) -/

/-- flipUniverse is an involution on the two legal universe ids. -/
theorem flipUniverse_involutive (u : ℤ) (hu : u = 1 ∨ u = 2) :
    flipUniverse (flipUniverse u) = u := by
  rcases hu with h | h <;> simp [flipUniverse, h]

/-- flipUniverse maps the legal universe ids to legal universe ids. -/
theorem flipUniverse_mem (u : ℤ) (hu : u = 1 ∨ u = 2) :
    flipUniverse u = 1 ∨ flipUniverse u = 2 := by
  rcases hu with h | h <;> simp [flipUniverse, h]

/-- The universe after one loop-body step: flipped exactly when the
RK4-advanced position lies inside the throat. -/
theorem geoStep_univ (tl : ℚ) (s : GeoState) :
    (geoStep tl s).univ =
      if stepDistSq tl s < throatRadiusG * throatRadiusG then flipUniverse s.univ
      else s.univ := by
  simp only [geoStep, stepDistSq]
  split <;> rfl

/-- The position/momentum part of geoStep does not depend on which branch
set the universe; the l field is never written. -/
theorem geoStep_l (tl : ℚ) (s : GeoState) : (geoStep tl s).l = s.l := by
  simp only [geoStep]
  split <;> rfl

/-- C3: over any number n of loop-body steps, the current-universe field
equals the initial one exactly when the number of throat passages among
those steps is even, and is the flipped one when it is odd; in particular
one passage flips it exactly once, a second passage flips it back, and the
flip itself is an involution on {1, 2}. -/
theorem claim_C3_universe_flip_involution (tl : ℚ) (s : GeoState) (n : Nat)
    (hu : s.univ = 1 ∨ s.univ = 2) :
    flipUniverse (flipUniverse s.univ) = s.univ ∧
    ((geoStep tl)^[n] s).univ =
      (if Even (countFlips tl s n) then s.univ else flipUniverse s.univ) := by
  refine ⟨flipUniverse_involutive s.univ hu, ?_⟩
  induction n generalizing s with
  | zero => simp [countFlips]
  | succ m ih =>
    rw [Function.iterate_succ_apply]
    have hcount : countFlips tl s (m + 1) =
        (if stepDistSq tl s < throatRadiusG * throatRadiusG then 1 else 0) +
          countFlips tl (geoStep tl s) m := rfl
    have hstep := geoStep_univ tl s
    by_cases hin : stepDistSq tl s < throatRadiusG * throatRadiusG
    · have huniv : (geoStep tl s).univ = flipUniverse s.univ := by rw [hstep, if_pos hin]
      have ih2 := ih (geoStep tl s) (huniv ▸ flipUniverse_mem s.univ hu)
      rw [ih2, hcount, if_pos hin, huniv]
      have hpar : Even (1 + countFlips tl (geoStep tl s) m) ↔
          ¬Even (countFlips tl (geoStep tl s) m) := by
        rw [Nat.add_comm]
        exact Nat.even_add_one
      by_cases hev : Even (countFlips tl (geoStep tl s) m)
      · rw [if_pos hev, if_neg (by rw [hpar]; exact not_not_intro hev)]
      · rw [if_neg hev, if_pos (hpar.mpr hev), flipUniverse_involutive s.univ hu]
    · have huniv : (geoStep tl s).univ = s.univ := by rw [hstep, if_neg hin]
      have ih2 := ih (geoStep tl s) (huniv ▸ hu)
      rw [ih2, hcount, if_neg hin, huniv, Nat.zero_add]

/-- Concrete geodesic state at the throat center: every step's advanced
position stays at the origin, inside the throat, so every step flips. -/
def s0ex : GeoState := ⟨⟨0, 0, 0⟩, ⟨0, 0, 0⟩, 1, 0⟩

unseal Rat.add Rat.sub Rat.mul Rat.inv in
/-- Witness for C3: from the throat-center state, one step counts one
passage and the parity formula applies. -/
theorem claim_C3_universe_flip_involution_witness :
    (s0ex.univ = 1 ∨ s0ex.univ = 2) ∧ countFlips 0 s0ex 1 = 1 ∧
    ((geoStep 0)^[1] s0ex).univ =
      (if Even (countFlips 0 s0ex 1) then s0ex.univ else flipUniverse s0ex.univ) :=
  ⟨by decide, by decide,
    (claim_C3_universe_flip_involution 0 s0ex 1 (by decide)).2⟩

/-- C4: the geodesic traceRay runs its loop with the fixed step cap 1000;
an exhausted step budget returns the background color black (0,0,0), and
crossing the 20000 escape threshold returns the same black — neither is an
error. -/
theorem claim_C4_step_budget_and_escape :
    (∀ (tl l0 : ℚ) (spheres : List SphereG) (origin direction : Vec3),
        geoTraceRay tl l0 spheres origin direction =
          geoLoop tl spheres 1000 ⟨origin, direction, 1, l0⟩) ∧
    (∀ (tl : ℚ) (spheres : List SphereG) (s : GeoState),
        geoLoop tl spheres 0 s = some ⟨0, 0, 0⟩) ∧
    (∀ (tl : ℚ) (spheres : List SphereG) (n : Nat) (s : GeoState),
        ¬((intersectScene spheres s.pos (normalize s.momentum) s.univ).hit = true ∧
          (intersectScene spheres s.pos (normalize s.momentum) s.univ).distance <
            stepSize * 2) →
        20000 * 20000 < stepDistSq tl s →
        geoLoop tl spheres (n + 1) s = some ⟨0, 0, 0⟩) := by
  refine ⟨fun _ _ _ _ _ => rfl, fun _ _ _ => rfl, ?_⟩
  intro tl spheres n s hnohit hesc
  simp only [geoLoop]
  rw [if_neg hnohit, if_pos hesc]

/-- Concrete geodesic state far outside the escape radius with zero
momentum: the RK4 step leaves it in place and the escape branch fires. -/
def sFarEx : GeoState := ⟨⟨30000, 0, 0⟩, ⟨0, 0, 0⟩, 1, 0⟩

unseal Rat.add Rat.sub Rat.mul Rat.inv in
/-- Witness for C4: in the empty scene the hit test fails, the advanced
squared distance 9*10^8 exceeds 20000^2, and the loop returns black. -/
theorem claim_C4_step_budget_and_escape_witness :
    (¬((intersectScene [] sFarEx.pos (normalize sFarEx.momentum) sFarEx.univ).hit = true ∧
       (intersectScene [] sFarEx.pos (normalize sFarEx.momentum) sFarEx.univ).distance <
         stepSize * 2)) ∧
    20000 * 20000 < stepDistSq 0 sFarEx ∧
    geoLoop 0 [] 1 sFarEx = some ⟨0, 0, 0⟩ :=
  ⟨by decide, by decide,
    claim_C4_step_budget_and_escape.2.2 0 [] 0 sFarEx
      (by decide) (by decide)⟩

/-! ## Scene-query fold characterization (claims C5 and C6) -/

/-- One scan step either leaves the accumulator unchanged, or records a
matching sphere's accepted candidate that strictly improves the distance. -/
theorem scanStep_cases (o d : Vec3) (u : ℤ) (acc : HitG) (s : SphereG) :
    scanSphereGStep o d u acc s = acc ∨
    ∃ t, sphereCandG o d s = some t ∧ s.universeID = u ∧ t < acc.distance ∧
      scanSphereGStep o d u acc s = mkHitG o d s t := by
  unfold scanSphereGStep
  by_cases h1 : s.universeID = u
  · rw [if_pos h1]
    cases hc : sphereCandG o d s with
    | none => exact Or.inl rfl
    | some t =>
      by_cases h2 : t < acc.distance
      · refine Or.inr ⟨t, rfl, h1, h2, ?_⟩
        show (if t < acc.distance then mkHitG o d s t else acc) = mkHitG o d s t
        rw [if_pos h2]
      · refine Or.inl ?_
        show (if t < acc.distance then mkHitG o d s t else acc) = acc
        rw [if_neg h2]
  · rw [if_neg h1]; exact Or.inl rfl

/-- One scan step never increases the recorded distance. -/
theorem scanStep_dist_le (o d : Vec3) (u : ℤ) (acc : HitG) (s : SphereG) :
    (scanSphereGStep o d u acc s).distance ≤ acc.distance := by
  rcases scanStep_cases o d u acc s with h | ⟨t, _, _, hlt, h⟩
  · rw [h]
  · rw [h]; exact le_of_lt hlt

/-- The scan fold never increases the recorded distance. -/
theorem foldl_scan_dist_le (o d : Vec3) (u : ℤ) (l : List SphereG) :
    ∀ acc : HitG, (l.foldl (scanSphereGStep o d u) acc).distance ≤ acc.distance := by
  induction l with
  | nil => intro acc; exact le_refl _
  | cons s rest ih =>
    intro acc
    rw [List.foldl_cons]
    exact le_trans (ih (scanSphereGStep o d u acc s)) (scanStep_dist_le o d u acc s)

/-- The scan fold either returns the accumulator unchanged or the recorded
hit of some matching sphere of the list whose accepted candidate strictly
beats the accumulator's distance. -/
theorem foldl_scan_spec (o d : Vec3) (u : ℤ) (l : List SphereG) :
    ∀ acc : HitG,
      l.foldl (scanSphereGStep o d u) acc = acc ∨
      ∃ s ∈ l, ∃ t, s.universeID = u ∧ sphereCandG o d s = some t ∧
        l.foldl (scanSphereGStep o d u) acc = mkHitG o d s t ∧ t < acc.distance := by
  induction l with
  | nil => intro acc; exact Or.inl rfl
  | cons s rest ih =>
    intro acc
    rw [List.foldl_cons]
    rcases scanStep_cases o d u acc s with hstep | ⟨t, hc, huId, hlt, hstep⟩
    · rw [hstep]
      rcases ih acc with h | ⟨s', hs', t', hu', hc', heq, hlt'⟩
      · exact Or.inl h
      · exact Or.inr ⟨s', List.mem_cons_of_mem s hs', t', hu', hc', heq, hlt'⟩
    · rw [hstep]
      rcases ih (mkHitG o d s t) with h | ⟨s', hs', t', hu', hc', heq, hlt'⟩
      · rw [h]
        exact Or.inr ⟨s, List.mem_cons_self s rest, t, huId, hc, rfl, hlt⟩
      · refine Or.inr ⟨s', List.mem_cons_of_mem s hs', t', hu', hc', heq, ?_⟩
        exact lt_trans hlt' hlt

/-- The final recorded distance is at most every matching sphere's accepted
candidate. -/
theorem foldl_scan_min (o d : Vec3) (u : ℤ) (l : List SphereG) :
    ∀ acc : HitG, ∀ s ∈ l, s.universeID = u → ∀ t, sphereCandG o d s = some t →
      (l.foldl (scanSphereGStep o d u) acc).distance ≤ t := by
  induction l with
  | nil => intro acc s hs; exact absurd hs (List.not_mem_nil s)
  | cons s0 rest ih =>
    intro acc s hs hu t hc
    rw [List.foldl_cons]
    rcases List.mem_cons.mp hs with heq | hmem
    · subst heq
      by_cases h2 : t < acc.distance
      · have hstep : scanSphereGStep o d u acc s = mkHitG o d s t := by
          unfold scanSphereGStep
          rw [if_pos hu, hc]
          show (if t < acc.distance then mkHitG o d s t else acc) = mkHitG o d s t
          rw [if_pos h2]
        rw [hstep]
        exact foldl_scan_dist_le o d u rest (mkHitG o d s t)
      · have hstep : scanSphereGStep o d u acc s = acc := by
          unfold scanSphereGStep
          rw [if_pos hu, hc]
          show (if t < acc.distance then mkHitG o d s t else acc) = acc
          rw [if_neg h2]
        rw [hstep]
        exact le_trans (foldl_scan_dist_le o d u rest acc) (le_of_not_lt h2)
    · exact ih (scanSphereGStep o d u acc s0) s hmem hu t hc

/-- A scan fold that reports no hit returned the accumulator unchanged. -/
theorem foldl_scan_of_hit_false (o d : Vec3) (u : ℤ) (l : List SphereG) (acc : HitG)
    (h : (l.foldl (scanSphereGStep o d u) acc).hit = false) :
    l.foldl (scanSphereGStep o d u) acc = acc := by
  rcases foldl_scan_spec o d u l acc with heq | ⟨s, _, t, _, _, heq, _⟩
  · exact heq
  · rw [heq] at h
    exact absurd h (by simp [mkHitG])

/-- Spheres of the wrong universe are skipped: the scan equals the scan of
the filtered list. -/
theorem intersectScene_filter (l : List SphereG) (o d : Vec3) (u : ℤ) :
    intersectScene l o d u =
      intersectScene (l.filter fun s => s.universeID == u) o d u := by
  unfold intersectScene
  suffices h : ∀ acc : HitG,
      l.foldl (scanSphereGStep o d u) acc =
        (l.filter fun s => s.universeID == u).foldl (scanSphereGStep o d u) acc from
    h noHitG
  induction l with
  | nil => intro acc; rfl
  | cons s rest ih =>
    intro acc
    rw [List.foldl_cons, List.filter_cons]
    by_cases h1 : s.universeID = u
    · have hp : ((fun s : SphereG => s.universeID == u) s) = true := by simp [h1]
      rw [if_pos hp, List.foldl_cons]
      exact ih (scanSphereGStep o d u acc s)
    · have hp : ¬((fun s : SphereG => s.universeID == u) s) = true := by simp [h1]
      have hstep : scanSphereGStep o d u acc s = acc := by
        unfold scanSphereGStep; rw [if_neg h1]
      rw [if_neg hp, hstep]
      exact ih acc

/-- Generic closest-hit scan step: the shared loop-body shape of
traceScene's sphere loop and cube loop in wormhole_sim.cpp, parameterised
by the per-primitive intersection test and color. -/
def scanStepS {α : Type} (cand : α → Option (ℚ × Vec3)) (col : α → Vec3)
    (acc : HitS) (p : α) : HitS :=
  match cand p with
  | some (t, n) => if t < acc.distance then ⟨true, t, n, col p⟩ else acc
  | none => acc

/-- traceScene's sphere loop body is the generic step at sphereIntersect. -/
theorem scanSphereStep_eq_generic (o d : Vec3) :
    scanSphereStep o d = scanStepS (fun s => sphereIntersect s o d) SphereS.color := by
  funext acc s
  unfold scanSphereStep scanStepS
  dsimp only

/-- traceScene's cube loop body is the generic step at cubeIntersect. -/
theorem scanCubeStep_eq_generic (o d : Vec3) :
    scanCubeStep o d = scanStepS (fun cb => cubeIntersect cb o d) CubeS.color := by
  funext acc cb
  unfold scanCubeStep scanStepS
  dsimp only

/-- traceScene in universe 1 is the generic scan of the sphere list. -/
theorem traceScene_one_eq (sph : List SphereS) (cub : List CubeS) (o d : Vec3) :
    traceScene sph cub o d 1 =
      sph.foldl (scanStepS (fun s => sphereIntersect s o d) SphereS.color) noHitS := by
  simp [traceScene]
  rw [scanSphereStep_eq_generic]

/-- traceScene in any universe other than 1 is the generic scan of the
cube list. -/
theorem traceScene_other_eq (sph : List SphereS) (cub : List CubeS) (o d : Vec3)
    (u : ℤ) (hu : ¬u = 1) :
    traceScene sph cub o d u =
      cub.foldl (scanStepS (fun cb => cubeIntersect cb o d) CubeS.color) noHitS := by
  simp [traceScene, hu]
  rw [scanCubeStep_eq_generic]

/-- One generic scan step either leaves the accumulator unchanged, or
records a candidate that strictly improves the distance. -/
theorem scanStepS_cases {α : Type} (cand : α → Option (ℚ × Vec3)) (col : α → Vec3)
    (acc : HitS) (p : α) :
    scanStepS cand col acc p = acc ∨
    ∃ t n, cand p = some (t, n) ∧ t < acc.distance ∧
      scanStepS cand col acc p = ⟨true, t, n, col p⟩ := by
  unfold scanStepS
  cases hc : cand p with
  | none => exact Or.inl rfl
  | some tn =>
    obtain ⟨t, n⟩ := tn
    by_cases h2 : t < acc.distance
    · refine Or.inr ⟨t, n, rfl, h2, ?_⟩
      show (if t < acc.distance then (⟨true, t, n, col p⟩ : HitS) else acc) =
        ⟨true, t, n, col p⟩
      rw [if_pos h2]
    · refine Or.inl ?_
      show (if t < acc.distance then (⟨true, t, n, col p⟩ : HitS) else acc) = acc
      rw [if_neg h2]

/-- One generic scan step never increases the recorded distance. -/
theorem scanStepS_dist_le {α : Type} (cand : α → Option (ℚ × Vec3)) (col : α → Vec3)
    (acc : HitS) (p : α) :
    (scanStepS cand col acc p).distance ≤ acc.distance := by
  rcases scanStepS_cases cand col acc p with h | ⟨t, n, _, hlt, h⟩
  · rw [h]
  · rw [h]; exact le_of_lt hlt

/-- The generic scan fold never increases the recorded distance. -/
theorem foldl_scanS_dist_le {α : Type} (cand : α → Option (ℚ × Vec3)) (col : α → Vec3)
    (l : List α) :
    ∀ acc : HitS, (l.foldl (scanStepS cand col) acc).distance ≤ acc.distance := by
  induction l with
  | nil => intro acc; exact le_refl _
  | cons p rest ih =>
    intro acc
    rw [List.foldl_cons]
    exact le_trans (ih (scanStepS cand col acc p)) (scanStepS_dist_le cand col acc p)

/-- The generic scan fold either returns the accumulator unchanged or the
recorded hit of some primitive of the list whose candidate strictly beats
the accumulator's distance. -/
theorem foldl_scanS_spec {α : Type} (cand : α → Option (ℚ × Vec3)) (col : α → Vec3)
    (l : List α) :
    ∀ acc : HitS,
      l.foldl (scanStepS cand col) acc = acc ∨
      ∃ p ∈ l, ∃ t n, cand p = some (t, n) ∧
        l.foldl (scanStepS cand col) acc = ⟨true, t, n, col p⟩ ∧ t < acc.distance := by
  induction l with
  | nil => intro acc; exact Or.inl rfl
  | cons p rest ih =>
    intro acc
    rw [List.foldl_cons]
    rcases scanStepS_cases cand col acc p with hstep | ⟨t, n, hc, hlt, hstep⟩
    · rw [hstep]
      rcases ih acc with h | ⟨p', hp', t', n', hc', heq, hlt'⟩
      · exact Or.inl h
      · exact Or.inr ⟨p', List.mem_cons_of_mem p hp', t', n', hc', heq, hlt'⟩
    · rw [hstep]
      rcases ih (⟨true, t, n, col p⟩ : HitS) with h | ⟨p', hp', t', n', hc', heq, hlt'⟩
      · rw [h]
        exact Or.inr ⟨p, List.mem_cons_self p rest, t, n, hc, rfl, hlt⟩
      · refine Or.inr ⟨p', List.mem_cons_of_mem p hp', t', n', hc', heq, ?_⟩
        exact lt_trans hlt' hlt

/-- The generic scan fold's final distance is at most every candidate of
the list. -/
theorem foldl_scanS_min {α : Type} (cand : α → Option (ℚ × Vec3)) (col : α → Vec3)
    (l : List α) :
    ∀ acc : HitS, ∀ p ∈ l, ∀ (t : ℚ) (n : Vec3), cand p = some (t, n) →
      (l.foldl (scanStepS cand col) acc).distance ≤ t := by
  induction l with
  | nil => intro acc p hp; exact absurd hp (List.not_mem_nil p)
  | cons p0 rest ih =>
    intro acc p hp t n hc
    rw [List.foldl_cons]
    rcases List.mem_cons.mp hp with heq | hmem
    · subst heq
      by_cases h2 : t < acc.distance
      · have hstep : scanStepS cand col acc p = ⟨true, t, n, col p⟩ := by
          unfold scanStepS
          rw [hc]
          show (if t < acc.distance then (⟨true, t, n, col p⟩ : HitS) else acc) =
            ⟨true, t, n, col p⟩
          rw [if_pos h2]
        rw [hstep]
        exact foldl_scanS_dist_le cand col rest ⟨true, t, n, col p⟩
      · have hstep : scanStepS cand col acc p = acc := by
          unfold scanStepS
          rw [hc]
          show (if t < acc.distance then (⟨true, t, n, col p⟩ : HitS) else acc) = acc
          rw [if_neg h2]
        rw [hstep]
        exact le_trans (foldl_scanS_dist_le cand col rest acc) (le_of_not_lt h2)
    · exact ih (scanStepS cand col acc p0) p hmem t n hc

/-- A generic scan fold that reports no hit returned the accumulator
unchanged. -/
theorem foldl_scanS_of_hit_false {α : Type} (cand : α → Option (ℚ × Vec3))
    (col : α → Vec3) (l : List α) (acc : HitS)
    (h : (l.foldl (scanStepS cand col) acc).hit = false) :
    l.foldl (scanStepS cand col) acc = acc := by
  rcases foldl_scanS_spec cand col l acc with heq | ⟨p, _, t, n, _, heq, _⟩
  · exact heq
  · rw [heq] at h
    exact absurd h (by simp)

/-- Full characterization of the generic scan from the 1e10 sentinel:
hit = false exactly when every candidate is at or beyond the sentinel, in
which case the distance IS the finite sentinel; a reported hit is some
listed primitive's candidate below the sentinel, of minimal distance. -/
theorem foldl_scanS_characterization {α : Type} (cand : α → Option (ℚ × Vec3))
    (col : α → Vec3) (l : List α) :
    ((l.foldl (scanStepS cand col) noHitS).hit = false ↔
      ∀ p ∈ l, ∀ (t : ℚ) (n : Vec3), cand p = some (t, n) → 10 ^ 10 ≤ t) ∧
    ((l.foldl (scanStepS cand col) noHitS).hit = false →
      (l.foldl (scanStepS cand col) noHitS).distance = 10 ^ 10) ∧
    ((l.foldl (scanStepS cand col) noHitS).hit = true →
      ∃ p ∈ l, ∃ (t : ℚ) (n : Vec3), cand p = some (t, n) ∧
        l.foldl (scanStepS cand col) noHitS = ⟨true, t, n, col p⟩ ∧ t < 10 ^ 10) ∧
    (∀ p ∈ l, ∀ (t : ℚ) (n : Vec3), cand p = some (t, n) →
      (l.foldl (scanStepS cand col) noHitS).distance ≤ t) := by
  have hspec := foldl_scanS_spec cand col l noHitS
  refine ⟨⟨?_, ?_⟩, ?_, ?_, ?_⟩
  · intro hfalse p hp t n hc
    by_contra hlt
    push_neg at hlt
    have hmin := foldl_scanS_min cand col l noHitS p hp t n hc
    rw [foldl_scanS_of_hit_false cand col l noHitS hfalse] at hmin
    have hnd : (noHitS.distance : ℚ) = 10 ^ 10 := rfl
    rw [hnd] at hmin
    exact absurd (lt_of_le_of_lt hmin hlt) (lt_irrefl _)
  · intro hall
    rcases hspec with heq | ⟨p, hp, t, n, hc, heq, hlt⟩
    · rw [heq]
      rfl
    · have := hall p hp t n hc
      have hnd : (noHitS.distance : ℚ) = 10 ^ 10 := rfl
      rw [hnd] at hlt
      exact absurd hlt (not_lt_of_le this)
  · intro hfalse
    rw [foldl_scanS_of_hit_false cand col l noHitS hfalse]
    rfl
  · intro htrue
    rcases hspec with heq | ⟨p, hp, t, n, hc, heq, hlt⟩
    · rw [heq] at htrue
      exact absurd htrue (by simp [noHitS])
    · have hnd : (noHitS.distance : ℚ) = 10 ^ 10 := rfl
      rw [hnd] at hlt
      exact ⟨p, hp, t, n, hc, heq, hlt⟩
  · exact fun p hp t n hc => foldl_scanS_min cand col l noHitS p hp t n hc

/-- C5 amended: the scene query returns the closest hit among exactly the
matching-universe primitives whose accepted parameter is strictly below
the finite sentinel 1e10 (hits at or beyond 1e10 are silently dropped);
when no such primitive exists it returns hit = false with distance equal
to the finite sentinel 1e10 (not +infinity).  This holds for the geodesic
variant's intersectScene (universe filter over one sphere list) and
equally for the sim variant's traceScene (universe 1 reads only the
sphere list and every other universe only the cube list, each with the
same sentinel and minimality behavior). -/
theorem claim_C5_scene_query_amended (l : List SphereG) (o d : Vec3) (u : ℤ) :
    (intersectScene l o d u =
      intersectScene (l.filter fun s => s.universeID == u) o d u) ∧
    ((intersectScene l o d u).hit = false ↔
      ∀ s ∈ l, s.universeID = u → ∀ t, sphereCandG o d s = some t → 10 ^ 10 ≤ t) ∧
    ((intersectScene l o d u).hit = false → (intersectScene l o d u).distance = 10 ^ 10) ∧
    ((intersectScene l o d u).hit = true →
      ∃ s ∈ l, s.universeID = u ∧ ∃ t, sphereCandG o d s = some t ∧
        intersectScene l o d u = mkHitG o d s t ∧ t < 10 ^ 10) ∧
    (∀ s ∈ l, s.universeID = u → ∀ t, sphereCandG o d s = some t →
      (intersectScene l o d u).distance ≤ t) ∧
    (∀ (sph : List SphereS) (cub cub' : List CubeS),
      traceScene sph cub o d 1 = traceScene sph cub' o d 1) ∧
    (∀ (sph sph' : List SphereS) (cub : List CubeS),
      traceScene sph cub o d 2 = traceScene sph' cub o d 2) ∧
    (∀ (sph : List SphereS) (cub : List CubeS),
      ((traceScene sph cub o d 1).hit = false ↔
        ∀ s ∈ sph, ∀ (t : ℚ) (n : Vec3), sphereIntersect s o d = some (t, n) →
          10 ^ 10 ≤ t) ∧
      ((traceScene sph cub o d 1).hit = false →
        (traceScene sph cub o d 1).distance = 10 ^ 10) ∧
      ((traceScene sph cub o d 1).hit = true →
        ∃ s ∈ sph, ∃ (t : ℚ) (n : Vec3), sphereIntersect s o d = some (t, n) ∧
          traceScene sph cub o d 1 = ⟨true, t, n, s.color⟩ ∧ t < 10 ^ 10) ∧
      (∀ s ∈ sph, ∀ (t : ℚ) (n : Vec3), sphereIntersect s o d = some (t, n) →
        (traceScene sph cub o d 1).distance ≤ t)) ∧
    (∀ (sph : List SphereS) (cub : List CubeS) (u2 : ℤ), ¬u2 = 1 →
      ((traceScene sph cub o d u2).hit = false ↔
        ∀ cb ∈ cub, ∀ (t : ℚ) (n : Vec3), cubeIntersect cb o d = some (t, n) →
          10 ^ 10 ≤ t) ∧
      ((traceScene sph cub o d u2).hit = false →
        (traceScene sph cub o d u2).distance = 10 ^ 10) ∧
      ((traceScene sph cub o d u2).hit = true →
        ∃ cb ∈ cub, ∃ (t : ℚ) (n : Vec3), cubeIntersect cb o d = some (t, n) ∧
          traceScene sph cub o d u2 = ⟨true, t, n, cb.color⟩ ∧ t < 10 ^ 10) ∧
      (∀ cb ∈ cub, ∀ (t : ℚ) (n : Vec3), cubeIntersect cb o d = some (t, n) →
        (traceScene sph cub o d u2).distance ≤ t)) := by
  have hspec := foldl_scan_spec o d u l noHitG
  refine ⟨intersectScene_filter l o d u, ⟨?_, ?_⟩, ?_, ?_, ?_, ?_, ?_, ?_, ?_⟩
  · intro hfalse s hs hu t hc
    by_contra hlt
    push_neg at hlt
    have hmin := foldl_scan_min o d u l noHitG s hs hu t hc
    have heq := foldl_scan_of_hit_false o d u l noHitG hfalse
    unfold intersectScene at heq hmin
    rw [heq] at hmin
    have : (noHitS.distance : ℚ) = 10 ^ 10 := rfl
    exact absurd (lt_of_le_of_lt hmin hlt) (lt_irrefl _)
  · intro hall
    rcases hspec with heq | ⟨s, hs, t, hu, hc, heq, hlt⟩
    · unfold intersectScene
      rw [heq]
      rfl
    · have := hall s hs hu t hc
      have hnd : (noHitG.distance : ℚ) = 10 ^ 10 := rfl
      rw [hnd] at hlt
      exact absurd hlt (not_lt_of_le this)
  · intro hfalse
    have heq := foldl_scan_of_hit_false o d u l noHitG hfalse
    unfold intersectScene
    rw [heq]
    rfl
  · intro htrue
    rcases hspec with heq | ⟨s, hs, t, hu, hc, heq, hlt⟩
    · unfold intersectScene at htrue
      rw [heq] at htrue
      exact absurd htrue (by simp [noHitG])
    · refine ⟨s, hs, hu, t, hc, heq, ?_⟩
      have hnd : (noHitG.distance : ℚ) = 10 ^ 10 := rfl
      rw [hnd] at hlt
      exact hlt
  · exact fun s hs hu t hc => foldl_scan_min o d u l noHitG s hs hu t hc
  · exact fun sph cub cub' => traceScene_universe1 sph cub cub' o d
  · exact fun sph sph' cub => traceScene_universe2 sph sph' cub o d
  · intro sph cub
    rw [traceScene_one_eq sph cub o d]
    exact foldl_scanS_characterization (fun s => sphereIntersect s o d) SphereS.color sph
  · intro sph cub u2 hu2
    rw [traceScene_other_eq sph cub o d u2 hu2]
    exact foldl_scanS_characterization (fun cb => cubeIntersect cb o d) CubeS.color cub

/-- Universe-1 sphere that the ray from the origin along (0,0,-1) genuinely
intersects at t = 1e10 exactly — at, not below, the sentinel. -/
def farSphEx : SphereG := ⟨⟨0, 0, -20000000000⟩, 10000000000, ⟨1, 1, 1⟩, false, 1⟩

/-- The same far sphere as a sim-variant primitive. -/
def farSphExS : SphereS := ⟨⟨0, 0, -20000000000⟩, 10000000000, ⟨1, 1, 1⟩⟩

unseal Rat.add Rat.sub Rat.mul Rat.inv in
/-- C5 counterexample: the matching sphere is intersected at the positive
parameter t = 1e10 (its accepted candidate), yet the scene query reports
hit = false — because the sentinel is the finite 1e10, not +infinity, and
candidates at or beyond it are dropped by the strict comparison.  The same
input defeats both the geodesic intersectScene and the sim traceScene. -/
theorem claim_C5_scene_query_counterexample :
    farSphEx.universeID = 1 ∧
    sphereCandG ⟨0, 0, 0⟩ ⟨0, 0, -1⟩ farSphEx = some (10 ^ 10) ∧
    (1/1000 : ℚ) < 10 ^ 10 ∧
    (intersectScene [farSphEx] ⟨0, 0, 0⟩ ⟨0, 0, -1⟩ 1).hit = false ∧
    (intersectScene [farSphEx] ⟨0, 0, 0⟩ ⟨0, 0, -1⟩ 1).distance = 10 ^ 10 ∧
    sphereIntersect farSphExS ⟨0, 0, 0⟩ ⟨0, 0, -1⟩ = some (10 ^ 10, ⟨0, 0, 1⟩) ∧
    (traceScene [farSphExS] [] ⟨0, 0, 0⟩ ⟨0, 0, -1⟩ 1).hit = false ∧
    (traceScene [farSphExS] [] ⟨0, 0, 0⟩ ⟨0, 0, -1⟩ 1).distance = 10 ^ 10 := by
  refine ⟨rfl, by decide, by decide,
    by decide, by decide, by decide, by decide, by decide⟩

unseal Rat.add Rat.sub Rat.mul Rat.inv in
/-- Witness for the amended C5: the empty scene reports no hit and the
sentinel distance, via the amended theorem, in both the geodesic
intersectScene and the sim traceScene. -/
theorem claim_C5_scene_query_amended_witness :
    (intersectScene [] ⟨0, 0, 0⟩ ⟨0, 0, -1⟩ 1).hit = false ∧
    (intersectScene [] ⟨0, 0, 0⟩ ⟨0, 0, -1⟩ 1).distance = 10 ^ 10 ∧
    (traceScene [] [] ⟨0, 0, 0⟩ ⟨0, 0, -1⟩ 1).hit = false ∧
    (traceScene [] [] ⟨0, 0, 0⟩ ⟨0, 0, -1⟩ 1).distance = 10 ^ 10 :=
  ⟨by decide,
    (claim_C5_scene_query_amended [] ⟨0, 0, 0⟩ ⟨0, 0, -1⟩ 1).2.2.1
      (by decide),
    by decide,
    ((claim_C5_scene_query_amended [] ⟨0, 0, 0⟩ ⟨0, 0, -1⟩ 1).2.2.2.2.2.2.2.1
        [] []).2.1 (by decide)⟩

/-! ## Claim C6: ray-sphere root policy -/

/-- The quadratic discriminant of the ray-sphere test as the specification
words it: a = dot(dir,dir), b = 2 dot(oc,dir), c = dot(oc,oc) - r^2. -/
def sphereDisc (center : Vec3) (radius : ℚ) (o d : Vec3) : ℚ :=
  (2 * dot (o - center) d) ^ 2 -
    4 * dot d d * (dot (o - center) (o - center) - radius ^ 2)

/-- The smaller quadratic root (-b - sqrt(disc)) / (2a). -/
def sphereRootSmall (center : Vec3) (radius : ℚ) (o d : Vec3) : ℚ :=
  (-(2 * dot (o - center) d) - ratSqrt (sphereDisc center radius o d)) / (2 * dot d d)

/-- The larger quadratic root (-b + sqrt(disc)) / (2a). -/
def sphereRootBig (center : Vec3) (radius : ℚ) (o d : Vec3) : ℚ :=
  (-(2 * dot (o - center) d) + ratSqrt (sphereDisc center radius o d)) / (2 * dot d d)

/-- The ray-sphere intersection as the specification words it: discard a
negative discriminant, prefer the smaller root when it exceeds epsilon =
0.001, else the larger root when it exceeds epsilon, normal =
normalize(hitPoint - center), no hit otherwise. -/
def sphereIntersectSpec (s : SphereS) (o d : Vec3) : Option (ℚ × Vec3) :=
  if sphereDisc s.center s.radius o d < 0 then none
  else if 1/1000 < sphereRootSmall s.center s.radius o d then
    some (sphereRootSmall s.center s.radius o d,
          normalize ((o + sphereRootSmall s.center s.radius o d • d) - s.center))
  else if 1/1000 < sphereRootBig s.center s.radius o d then
    some (sphereRootBig s.center s.radius o d,
          normalize ((o + sphereRootBig s.center s.radius o d • d) - s.center))
  else none

/-- The two discriminant spellings agree. -/
theorem sphereDisc_eq (center : Vec3) (radius : ℚ) (o d : Vec3) :
    sphereDisc center radius o d =
      2 * dot (o - center) d * (2 * dot (o - center) d) -
        4 * dot d d * (dot (o - center) (o - center) - radius * radius) := by
  unfold sphereDisc
  ring

/-- Sphere::intersect of the sim variant implements exactly the spec's
two-root policy. -/
theorem sphereIntersect_eq_spec (s : SphereS) (o d : Vec3) :
    sphereIntersect s o d = sphereIntersectSpec s o d := by
  simp only [sphereIntersect, sphereIntersectSpec, sphereRootSmall, sphereRootBig]
  rw [sphereDisc_eq]

/-- The smaller root is indeed at most the larger root (with the ℚ
convention that a zero-length direction collapses both to 0). -/
theorem sphereRootSmall_le_big (center : Vec3) (radius : ℚ) (o d : Vec3) :
    sphereRootSmall center radius o d ≤ sphereRootBig center radius o d := by
  unfold sphereRootSmall sphereRootBig
  rcases eq_or_lt_of_le (dot_self_nonneg d) with h0 | hpos
  · rw [← h0, mul_zero, div_zero, div_zero]
  · have h2 : (0:ℚ) < 2 * dot d d := by linarith
    exact (div_le_div_iff_of_pos_right h2).mpr
      (by linarith [ratSqrt_nonneg (sphereDisc center radius o d)])

/-- Every hit reported by Sphere::intersect has parameter strictly above
epsilon = 0.001 — in particular a ray starting exactly on the sphere
surface never reports a self-hit at t = 0. -/
theorem sphereIntersect_t_gt_eps (s : SphereS) (o d : Vec3) (t : ℚ) (n : Vec3)
    (h : sphereIntersect s o d = some (t, n)) : 1/1000 < t := by
  simp only [sphereIntersect] at h
  split at h
  · exact absurd h (by simp)
  · split at h
    · rename_i h1
      simp only [Option.some.injEq, Prod.mk.injEq] at h
      rw [← h.1]
      exact h1
    · split at h
      · rename_i h2
        simp only [Option.some.injEq, Prod.mk.injEq] at h
        rw [← h.1]
        exact h2
      · exact absurd h (by simp)

/-- The geodesic variant's per-sphere test accepts exactly the SMALLER
quadratic root, and only when it exceeds epsilon: there is no fallback to
the larger root. -/
theorem sphereCandG_characterization (o d : Vec3) (sp : SphereG) (t : ℚ) :
    sphereCandG o d sp = some t ↔
      0 ≤ sphereDisc sp.center sp.radius o d ∧
      t = sphereRootSmall sp.center sp.radius o d ∧ 1/1000 < t := by
  simp only [sphereCandG, sphereRootSmall]
  rw [sphereDisc_eq]
  split
  · rename_i hd
    split
    · rename_i h1
      simp only [Option.some.injEq]
      constructor
      · intro ht
        exact ⟨hd, ht.symm, ht ▸ h1⟩
      · intro h
        exact h.2.1.symm
    · rename_i h1
      constructor
      · intro h
        exact absurd h (by simp)
      · intro h
        exact absurd (h.2.1 ▸ h.2.2) h1
  · rename_i hd
    constructor
    · intro h
      exact absurd h (by simp)
    · intro h
      exact absurd h.1 hd

/-- C6 amended: the sim variant's Sphere::intersect follows the claim's
two-root policy exactly (smaller root preferred when above epsilon, else
larger root, normal from the hit point, reported t always above epsilon,
so no false self-hit for an on-surface origin); the geodesic variant's
inline per-sphere test does NOT — it considers only the smaller root and
reports no hit whenever that root is at most epsilon, even when the larger
root exceeds epsilon. -/
theorem claim_C6_amended_root_policy :
    (∀ (s : SphereS) (o d : Vec3), sphereIntersect s o d = sphereIntersectSpec s o d) ∧
    (∀ (center : Vec3) (radius : ℚ) (o d : Vec3),
      sphereRootSmall center radius o d ≤ sphereRootBig center radius o d) ∧
    (∀ (s : SphereS) (o d : Vec3) (t : ℚ) (n : Vec3),
      sphereIntersect s o d = some (t, n) → 1/1000 < t) ∧
    (∀ (o d : Vec3) (sp : SphereG) (t : ℚ),
      sphereCandG o d sp = some t ↔
        0 ≤ sphereDisc sp.center sp.radius o d ∧
        t = sphereRootSmall sp.center sp.radius o d ∧ 1/1000 < t) :=
  ⟨sphereIntersect_eq_spec, sphereRootSmall_le_big, sphereIntersect_t_gt_eps,
    sphereCandG_characterization⟩

/-- Geodesic-variant sphere containing the example ray origin. -/
def inSphExG : SphereG := ⟨⟨0, 0, 0⟩, 5, ⟨1, 0, 0⟩, false, 1⟩

/-- The same sphere for the sim variant. -/
def inSphExS : SphereS := ⟨⟨0, 0, 0⟩, 5, ⟨1, 0, 0⟩⟩

unseal Rat.add Rat.sub Rat.mul Rat.inv in
/-- C6 counterexample: for the ray starting at the sphere's center, the
discriminant is non-negative, the smaller root is -5 (at most epsilon), the
larger root is 5 and exceeds epsilon — the claim then promises the larger
root — yet the geodesic variant's scene test reports NO hit, while the sim
variant's Sphere::intersect does return the larger root 5.  The claim is
false for the geodesic intersectScene it cites. -/
theorem claim_C6_counterexample :
    0 ≤ sphereDisc (⟨0, 0, 0⟩ : Vec3) 5 ⟨0, 0, 0⟩ ⟨0, 0, -1⟩ ∧
    sphereRootSmall (⟨0, 0, 0⟩ : Vec3) 5 ⟨0, 0, 0⟩ ⟨0, 0, -1⟩ ≤ 1/1000 ∧
    sphereRootBig (⟨0, 0, 0⟩ : Vec3) 5 ⟨0, 0, 0⟩ ⟨0, 0, -1⟩ = 5 ∧
    (1/1000 : ℚ) < 5 ∧
    (intersectScene [inSphExG] ⟨0, 0, 0⟩ ⟨0, 0, -1⟩ 1).hit = false ∧
    sphereIntersect inSphExS ⟨0, 0, 0⟩ ⟨0, 0, -1⟩ = some (5, ⟨0, 0, -1⟩) := by
  refine ⟨by decide, by decide, by decide, by decide, by decide, by decide⟩

unseal Rat.add Rat.sub Rat.mul Rat.inv in
/-- Witness for the amended C6: a concrete reported hit (the larger root 5
for the on-center ray) satisfies the epsilon guard via the theorem. -/
theorem claim_C6_amended_root_policy_witness :
    sphereIntersect inSphExS ⟨0, 0, 0⟩ ⟨0, 0, -1⟩ = some (5, ⟨0, 0, -1⟩) ∧
    (1/1000 : ℚ) < 5 :=
  ⟨by decide,
    claim_C6_amended_root_policy.2.2.1 inSphExS ⟨0, 0, 0⟩ ⟨0, 0, -1⟩ 5 ⟨0, 0, -1⟩
      (by decide)⟩

/-! ## Claim C8: shading without a sun -/

/-- The sim variant's local shading with the light direction made an
explicit parameter — the spec's "default light direction". -/
def shadeLocalWith (lightDir : Vec3) (origin direction : Vec3) (h : HitS) : Vec3 :=
  let viewDir := normalize (origin - (origin + h.distance • direction))
  let diffuse := max 0 (dot h.normal lightDir)
  let reflectDir := reflectV (-lightDir) h.normal
  let spec := (max (dot viewDir reflectDir) 0) ^ 32
  ((3/10 + diffuse * (7/10)) • h.color) + (spec • (⟨1/2, 1/2, 1/2⟩ : Vec3))

/-- The geodesic variant's shading of a non-emissive hit is undefined
(out-of-bounds sun lookup) exactly when the unguarded index spheres[0]
(universe 1) or spheres[3] (otherwise) does not exist. -/
theorem geoShade_isNone_iff (spheres : List SphereG) (u : ℤ) (pos dir : Vec3) (h : HitG)
    (hEm : h.isEmissive = false) :
    (geoShade spheres u pos dir h).isNone = true ↔
      ((u = 1 ∧ spheres = []) ∨ (¬u = 1 ∧ spheres.length < 4)) := by
  unfold geoShade
  rw [hEm]
  simp only [Bool.false_eq_true, if_false]
  by_cases hu : u = 1
  · rw [if_pos hu]
    cases hg : spheres.get? 0 with
    | none =>
      have hnil : spheres = [] := by
        cases spheres with
        | nil => rfl
        | cons a l => simp at hg
      simp [hnil, hu]
    | some sun =>
      have hne : ¬spheres = [] := by
        intro hcon
        rw [hcon] at hg
        simp at hg
      simp [hu, hne]
  · rw [if_neg hu]
    cases hg : spheres.get? 3 with
    | none =>
      have hlen : spheres.length ≤ 3 := List.get?_eq_none.mp hg
      simp [hu, Nat.lt_succ_iff, hlen]
    | some sun =>
      have hlen : ¬spheres.length ≤ 3 := by
        intro hcon
        rw [List.get?_eq_none.mpr hcon] at hg
        exact absurd hg (by simp)
      simp [hu, Nat.lt_succ_iff, hlen]

/-- C8 amended: the sim variant's shading always uses the fixed default
light direction normalize(1,1,1) and is total for every scene; the
geodesic variant's shading of a non-emissive hit performs the sun lookup
spheres[0] / spheres[3] with NO fallback: it is undefined exactly when the
scene lacks that entry (universe 1 with an empty list, any other universe
with fewer than four spheres), empty scenes included. -/
theorem claim_C8_sun_lookup_amended :
    (∀ (o d : Vec3) (hi : HitS),
      shadeLocal o d hi = shadeLocalWith (normalize ⟨1, 1, 1⟩) o d hi) ∧
    (∀ (spheres : List SphereG) (u : ℤ) (pos dir : Vec3) (h : HitG),
      h.isEmissive = false →
      ((geoShade spheres u pos dir h).isNone = true ↔
        ((u = 1 ∧ spheres = []) ∨ (¬u = 1 ∧ spheres.length < 4)))) :=
  ⟨fun _ _ _ => rfl, geoShade_isNone_iff⟩

/-- Concrete non-emissive hit record. -/
def hitEx : HitG := ⟨true, 5, ⟨0, 0, 1⟩, ⟨1, 0, 0⟩, false⟩

/-- A universe-2 sphere: a scene in which a universe-2 hit is possible yet
spheres[3] does not exist. -/
def u2SphEx : SphereG := ⟨⟨0, 0, -3⟩, 1, ⟨1, 1, 0⟩, false, 2⟩

/-- C8 counterexample: shading a non-emissive hit fails (no value, the
modelled out-of-bounds access) for a universe-2 hit in a one-sphere scene
and for a universe-1 hit in an empty scene — no default light is
substituted in the geodesic variant. -/
theorem claim_C8_counterexample :
    hitEx.isEmissive = false ∧
    geoShade [u2SphEx] 2 ⟨0, 0, 0⟩ ⟨0, 0, -1⟩ hitEx = none ∧
    geoShade [] 1 ⟨0, 0, 0⟩ ⟨0, 0, -1⟩ hitEx = none :=
  ⟨rfl, rfl, rfl⟩

/-- Witness for the amended C8 at the empty scene in universe 1. -/
theorem claim_C8_sun_lookup_amended_witness :
    hitEx.isEmissive = false ∧
    ((geoShade [] 1 ⟨0, 0, 0⟩ ⟨0, 0, -1⟩ hitEx).isNone = true ↔
      (((1 : ℤ) = 1 ∧ ([] : List SphereG) = []) ∨
       (¬(1 : ℤ) = 1 ∧ ([] : List SphereG).length < 4))) :=
  ⟨rfl, claim_C8_sun_lookup_amended.2 [] 1 ⟨0, 0, 0⟩ ⟨0, 0, -1⟩ hitEx rfl⟩

/-! ## Claim C9: camera representation consistency -/

theorem clampQ_eq_self (x lo hi : ℚ) (h1 : lo ≤ x) (h2 : x ≤ hi) :
    clampQ x lo hi = x := by
  unfold clampQ
  rw [max_eq_left h1]
  exact min_eq_left h2

theorem clampQ_mem (x lo hi : ℚ) (h : lo ≤ hi) :
    lo ≤ clampQ x lo hi ∧ clampQ x lo hi ≤ hi := by
  unfold clampQ
  exact ⟨le_min (le_max_right x lo) h, min_le_right _ _⟩

theorem elev_range_ok : (1 : ℚ)/10 ≤ piQ - 1/10 := by
  norm_num [piQ]

/-- updatePosition establishes the consistency invariant. -/
theorem updatePosition_consistent (c : CameraS) : RepConsistent (updatePosition c) := rfl

/-- orbit ends in updatePosition, so its result is consistent. -/
theorem orbit_consistent (c : CameraS) (dx dy : ℚ) : RepConsistent (orbit c dx dy) :=
  updatePosition_consistent _

/-- pan ends in updatePosition, so its result is consistent. -/
theorem pan_consistent (c : CameraS) (dx dy : ℚ) : RepConsistent (pan c dx dy) :=
  updatePosition_consistent _

/-- zoom ends in updatePosition, so its result is consistent. -/
theorem zoom_consistent (c : CameraS) (delta : ℚ) : RepConsistent (zoom c delta) :=
  updatePosition_consistent _

/-- orbit clamps the elevation into the legal range. -/
theorem orbit_elevOK (c : CameraS) (dx dy : ℚ) : ElevOK (orbit c dx dy) :=
  clampQ_mem (c.elevation + dy / 100) (1/10) (piQ - 1/10) elev_range_ok

/-- A fly-key translation moves position and target by the same vector and
so preserves their difference. -/
theorem flyTranslate_offset (c : CameraS) (v : Vec3) :
    (flyTranslate c v).position - (flyTranslate c v).target = c.position - c.target := by
  apply Vec3.eq_of_components <;>
    simp [flyTranslate, Vec3.sub_def, Vec3.add_def]

/-- A fly-key translation keeps a consistent camera consistent. -/
theorem flyTranslate_consistent (c : CameraS) (v : Vec3) (h : RepConsistent c) :
    RepConsistent (flyTranslate c v) := by
  unfold RepConsistent at *
  have hoff := flyTranslate_offset c v
  have htgt : (flyTranslate c v).target = c.target + v := rfl
  have hsph : sphOffset (flyTranslate c v) = sphOffset c := rfl
  apply Vec3.eq_of_components <;>
    · have hx := congrArg Vec3.x h
      have hy := congrArg Vec3.y h
      have hz := congrArg Vec3.z h
      simp [flyTranslate, Vec3.sub_def, Vec3.add_def, sphOffset] at *
      linarith

/-- orbit with zero deltas leaves the position of a consistent, in-range
camera unchanged. -/
theorem orbit_zero_fixes_position (c : CameraS) (hc : RepConsistent c) (he : ElevOK c) :
    (orbit c 0 0).position = c.position := by
  unfold orbit
  have haz : c.azimuth - 0 / 100 = c.azimuth := by norm_num
  have hel : clampQ (c.elevation + 0 / 100) (1/10) (piQ - 1/10) = c.elevation := by
    rw [show c.elevation + 0 / 100 = c.elevation by norm_num]
    exact clampQ_eq_self _ _ _ he.1 he.2
  rw [haz, hel]
  show c.target + sphOffset c = c.position
  exact hc.symm

/-- The never-mutated initial spherical pose: azimuth 0, elevation pi/2,
radius 80, with the constructor's cartesian offset (0,0,80) — which does
NOT match the spherical offset. -/
def InitPose (c : CameraS) : Prop :=
  c.azimuth = 0 ∧ c.elevation = piQ / 2 ∧ c.radius = 80 ∧
    c.position - c.target = ⟨0, 0, 80⟩

/-- Fly-key translations preserve the reachability invariant. -/
theorem fly_preserves (c : CameraS) (v : Vec3)
    (ih : ElevOK c ∧ (RepConsistent c ∨ InitPose c)) :
    ElevOK (flyTranslate c v) ∧
      (RepConsistent (flyTranslate c v) ∨ InitPose (flyTranslate c v)) := by
  refine ⟨ih.1, ?_⟩
  rcases ih.2 with hco | hip
  · exact Or.inl (flyTranslate_consistent c v hco)
  · refine Or.inr ⟨hip.1, hip.2.1, hip.2.2.1, ?_⟩
    rw [flyTranslate_offset]
    exact hip.2.2.2

/-- Every reachable camera is in the legal elevation range and is either
consistent or still in the untouched initial pose. -/
theorem reach_invariant (c : CameraS) (h : Reach c) :
    ElevOK c ∧ (RepConsistent c ∨ InitPose c) := by
  induction h with
  | init =>
    refine ⟨⟨by norm_num [initCamera, piQ], by norm_num [initCamera, piQ]⟩, Or.inr ?_⟩
    refine ⟨rfl, rfl, rfl, ?_⟩
    apply Vec3.eq_of_components <;> simp [initCamera, Vec3.sub_def]
  | orbit c dx dy hr ih => exact ⟨orbit_elevOK c dx dy, Or.inl (orbit_consistent c dx dy)⟩
  | pan c dx dy hr ih => exact ⟨ih.1, Or.inl (pan_consistent c dx dy)⟩
  | zoom c delta hr ih => exact ⟨ih.1, Or.inl (zoom_consistent c delta)⟩
  | keyW c hr ih => exact fly_preserves c _ ih
  | keyS c hr ih => exact fly_preserves c _ ih
  | keyA c hr ih => exact fly_preserves c _ ih
  | keyD c hr ih => exact fly_preserves c _ ih
  | keyUp c hr ih => exact fly_preserves c _ ih
  | keyDown c hr ih => exact fly_preserves c _ ih

/-- C9 amended: orbit(0,0) leaves the position unchanged for every camera
whose two representations are consistent and whose elevation is in the
clamp range; every orbit/pan/zoom re-establishes consistency and the
fly-by-key moves preserve it, so every reachable state is either
consistent (orbit(0,0) fixes it) or still in the raw constructor pose —
where the representations disagree and orbit(0,0) does move the camera
(see the counterexample). -/
theorem claim_C9_camera_amended :
    (∀ c : CameraS, RepConsistent c → ElevOK c → (orbit c 0 0).position = c.position) ∧
    (∀ (c : CameraS) (dx dy : ℚ), RepConsistent (orbit c dx dy) ∧ ElevOK (orbit c dx dy)) ∧
    (∀ (c : CameraS) (dx dy : ℚ), RepConsistent (pan c dx dy)) ∧
    (∀ (c : CameraS) (delta : ℚ), RepConsistent (zoom c delta)) ∧
    (∀ (c : CameraS) (v : Vec3), RepConsistent c → RepConsistent (flyTranslate c v)) ∧
    (∀ c : CameraS, Reach c → (orbit c 0 0).position = c.position ∨ InitPose c) := by
  refine ⟨orbit_zero_fixes_position,
    fun c dx dy => ⟨orbit_consistent c dx dy, orbit_elevOK c dx dy⟩,
    pan_consistent, zoom_consistent, flyTranslate_consistent, ?_⟩
  intro c hr
  rcases reach_invariant c hr with ⟨he, hco | hip⟩
  · exact Or.inl (orbit_zero_fixes_position c hco he)
  · exact Or.inr hip

unseal Rat.add Rat.sub Rat.mul Rat.inv in
/-- C9 counterexample: the initial camera state is reachable (it is the
constructor state) and calling orbit(0,0) on it CHANGES the position: the
constructor sets position (0,0,80) but azimuth 0 / elevation pi/2 /
radius 80, whose spherical-to-cartesian conversion is approximately
(80,0,0), so the first updatePosition snaps the camera to the x axis. -/
theorem claim_C9_counterexample :
    Reach initCamera ∧ (orbit initCamera 0 0).position ≠ initCamera.position :=
  ⟨Reach.init, by decide⟩

/-- Concrete consistent camera: azimuth 0, elevation 1, radius 2, position
equal to its own spherical offset. -/
def cWit : CameraS :=
  ⟨⟨2 * sinQ 1 * cosQ 0, 2 * cosQ 1, 0⟩, ⟨0, 0, 0⟩, ⟨0, 1, 0⟩, 60, 0, 1, 2⟩

unseal Rat.add Rat.sub Rat.mul Rat.inv in
/-- Witness for the amended C9: orbit(0,0) fixes the position of the
concrete consistent camera. -/
theorem claim_C9_camera_amended_witness :
    RepConsistent cWit ∧ ElevOK cWit ∧ (orbit cWit 0 0).position = cWit.position :=
  ⟨by decide, by decide, claim_C9_camera_amended.1 cWit (by decide) (by decide)⟩

end Wormhole
